import Mathlib

/-!
Verification of the UGREEN NAS integration's discovery / extraction engine
(`custom_components/ugreen/utils.py` and `custom_components/ugreen/api.py`).

Python values flowing through the engine are modelled by the inductive `Json`
below: `Json.null` stands for Python `None`, `Json.num` carries the rational
value of an `int`/`float`/`Decimal`, and `Json.obj` keeps fields in insertion
order (Python `dict`).  Fallible Python code (statements that may raise) is
modelled with `Option`/`Except`, where `none`/`.error` marks a raised
exception that the surrounding `try` of the source catches.  String surgery
is done over `List Char` with structural (fuel-based) recursion so that every
definition evaluates inside the kernel.
-/

inductive Json where
  | null : Json
  | bool : Bool → Json
  | num : ℚ → Json
  | str : String → Json
  | arr : List Json → Json
  | obj : List (String × Json) → Json

/-- Python truthiness of a value (`bool(x)`). -/
def pyTruthy : Json → Bool
  | .null => false
  | .bool b => b
  | .num q => q ≠ 0
  | .str s => s ≠ ""
  | .arr xs => ¬ xs.isEmpty
  | .obj fs => ¬ fs.isEmpty

/-- Python `x or d`: `x` when truthy, else `d`. -/
def pyOr (v d : Json) : Json := if pyTruthy v then v else d

def isObj : Json → Bool
  | .obj _ => true
  | _ => false

/-- First-match association lookup, the semantics of reading a Python dict key
(dict keys are unique, so first match is the match). -/
def jLookup (fs : List (String × Json)) (k : String) : Option Json :=
  match fs with
  | [] => none
  | (k', v) :: rest => if k' = k then some v else jLookup rest k

/-- `d.get(k, default)` on a value already known to be a dict. -/
def jGetD (fs : List (String × Json)) (k : String) (d : Json) : Json :=
  (jLookup fs k).getD d

/-- `x.get(k, default)` on an arbitrary value: raises `AttributeError` when
`x` is not a dict. -/
def pyGetD (v : Json) (k : String) (d : Json) : Except Unit Json :=
  match v with
  | .obj fs => .ok (jGetD fs k d)
  | _ => .error ()

/-- `data[k] = v` on an insertion-ordered dict: update in place if the key
exists, else append. -/
def dictSet (fs : List (String × Json)) (k : String) (v : Json) :
    List (String × Json) :=
  match fs with
  | [] => [(k, v)]
  | (k', v') :: rest =>
    if k' = k then (k', v) :: rest else (k', v') :: dictSet rest k v

/-- Python `len(x)`: defined for sequences, mappings and strings, raises
`TypeError` otherwise. -/
def pyLen : Json → Except Unit Nat
  | .arr xs => .ok xs.length
  | .obj fs => .ok fs.length
  | .str s => .ok s.length
  | _ => .error ()

/-- Python iteration `for x in v`: lists yield elements, strings yield
1-character strings, dicts yield their keys; other values raise `TypeError`. -/
def pyIter : Json → Except Unit (List Json)
  | .arr xs => .ok xs
  | .str s => .ok (s.data.map fun c => .str (String.mk [c]))
  | .obj fs => .ok (fs.map fun kv => .str kv.1)
  | _ => .error ()

/-- Python list indexing `xs[i]` with negative-index wrap-around; `none` is an
`IndexError`. -/
def pyIndex (xs : List Json) (i : Int) : Option Json :=
  if 0 ≤ i then xs.get? i.toNat
  else if (-i).toNat ≤ xs.length then xs.get? (xs.length - (-i).toNat)
  else none

/-- Prefix test over character lists (`str.startswith`). -/
def isPrefixCh : List Char → List Char → Bool
  | [], _ => true
  | _ :: _, [] => false
  | p :: ps, c :: cs => p = c && isPrefixCh ps cs

/-- Python `pat in s` substring containment. -/
def containsSubCh (pat : List Char) : List Char → Bool
  | [] => pat.isEmpty
  | c :: rest => isPrefixCh pat (c :: rest) || containsSubCh pat rest

/-- Python `s.startswith(pre)`. -/
def pyStartsWith (s pre : String) : Bool := isPrefixCh pre.data s.data

/-- Python `pat in s`. -/
def pyContains (s pat : String) : Bool := containsSubCh pat.data s.data

/-- Python `s.endswith(suf)`. -/
def pyEndsWith (s suf : String) : Bool :=
  isPrefixCh suf.data.reverse s.data.reverse

/-- Python single-character `s.split(sep)`: `"".split(".") = [""]`,
`"a..b".split(".") = ["a","","b"]`. -/
def pySplitCh (sep : Char) : List Char → List (List Char)
  | [] => [[]]
  | c :: rest =>
    let r := pySplitCh sep rest
    if c = sep then [] :: r
    else
      match r with
      | h :: t => (c :: h) :: t
      | [] => [[c]]

/-- Python `s.replace(pat, "")` for a nonempty pattern, via fuel over the
input length. -/
def eraseSubCh (pat : List Char) : Nat → List Char → List Char
  | 0, _ => []
  | _ + 1, [] => []
  | f + 1, c :: rest =>
    if isPrefixCh pat (c :: rest) && !pat.isEmpty then
      eraseSubCh pat f ((c :: rest).drop pat.length)
    else c :: eraseSubCh pat f rest

/-- Python `s.strip()` (ASCII/unicode whitespace at both ends). -/
def pyStripCh (cs : List Char) : List Char :=
  ((cs.dropWhile Char.isWhitespace).reverse.dropWhile Char.isWhitespace).reverse

def pyStrip (s : String) : String := ⟨pyStripCh s.data⟩

/-- Digits of a character run, or `none` when some character is not a digit
or the run is empty. -/
def digitsVal : List Char → Option Nat
  | [] => none
  | cs =>
    if cs.all Char.isDigit then
      some (cs.foldl (fun a c => a * 10 + (c.toNat - '0'.toNat)) 0)
    else none

/-- Python `int(s)`: optional sign followed by digits (`none` = `ValueError`).
Surrounding-whitespace tolerance of CPython is not needed by any path the
repository builds and is omitted. -/
def pyIntCh (cs : List Char) : Option Int :=
  match cs with
  | '-' :: rest => (digitsVal rest).map fun n => -(n : Int)
  | '+' :: rest => (digitsVal rest).map fun n => (n : Int)
  | _ => (digitsVal cs).map fun n => (n : Int)

/-- Decimal-literal parser, the value side of Python `Decimal(s)` / `float(s)`:
optional sign, integer part, optional fractional part, optional exponent.
`none` models the `InvalidOperation`/`ValueError` those constructors raise. -/
def decLitParse (cs : List Char) : Option ℚ :=
  let core : List Char → Option ℚ := fun cs =>
    let (mant, ex) :=
      match cs.findIdx? (fun c => c = 'e' ∨ c = 'E') with
      | some i => (cs.take i, some (cs.drop (i + 1)))
      | none => (cs, none)
    let mq : Option ℚ :=
      match mant.findIdx? (fun c => c = '.') with
      | some i =>
        let ip := mant.take i
        let fp := mant.drop (i + 1)
        if ip.isEmpty ∧ fp.isEmpty then none
        else if (ip.all Char.isDigit) ∧ (fp.all Char.isDigit) ∧
            ¬ fp.any (fun c => c = '.') then
          some ((((digitsVal ip).getD 0 : ℚ)) +
            ((digitsVal fp).getD 0 : ℚ) / (10 : ℚ) ^ fp.length)
        else none
      | none => (digitsVal mant).map fun n => (n : ℚ)
    match mq, ex with
    | some m, none => some m
    | some m, some e =>
      match e with
      | '-' :: d => (digitsVal d).map fun n => m / (10 : ℚ) ^ n
      | '+' :: d => (digitsVal d).map fun n => m * (10 : ℚ) ^ n
      | d => (digitsVal d).map fun n => m * (10 : ℚ) ^ n
    | none, _ => none
  match cs with
  | '-' :: rest => (core rest).map Neg.neg
  | '+' :: rest => core rest
  | _ => core cs

/-- Round to an integer, ties away from zero (`decimal.ROUND_HALF_UP`). -/
def roundHalfUpInt (q : ℚ) : Int :=
  if 0 ≤ q then ⌊q + 1 / 2⌋ else -⌊-q + 1 / 2⌋

/-- Round to an integer, ties to even — Python's builtin `round`. -/
def bankersRoundInt (q : ℚ) : Int :=
  let f := ⌊q⌋
  let r := q - f
  if r < 1 / 2 then f
  else if 1 / 2 < r then f + 1
  else if f % 2 = 0 then f else f + 1

/-- Python `round(q, dp)` (ties to even at `10^-dp`). -/
def bankersAt (dp : Nat) (q : ℚ) : ℚ :=
  (bankersRoundInt (q * (10 : ℚ) ^ dp) : ℚ) / (10 : ℚ) ^ dp

/-- Python `int(x)` coercion used by `format_status_code`: floats truncate
toward zero, strings parse as integers, booleans coerce to 0/1; `None`,
lists and dicts raise. -/
def pyToInt : Json → Option Int
  | .num q => some (if 0 ≤ q then (⌊q⌋ : Int) else -⌊-q⌋)
  | .str s => pyIntCh s.data
  | .bool b => some (if b then 1 else 0)
  | _ => none

/-!
### `extract_value_from_path` (utils.py lines 230-244)

The Python walker keeps a running `value`; a plain segment does
`value = value.get(part) if isinstance(value, dict) else None`, an indexed
segment does `value = value.get(name, []) if isinstance(value, dict) else []`
followed by `value = value[int(index)] if isinstance(value, list) else None`.
Any raised exception (bad segment shape, bad index literal, `IndexError`)
is caught by the enclosing `try` and turns the whole call into `None`.
`Option` below is that exception channel; the walked Python value itself is
a `Json`, with `Json.null` for `None`.
-/

def isArr : Json → Bool
  | .arr _ => true
  | _ => false

/-- `value.get(name, default) if isinstance(value, dict) else default` — the
shared first half of both segment kinds. -/
def objGetStep (v : Json) (nm : String) (d : Json) : Json :=
  match v with
  | .obj fs => jGetD fs nm d
  | _ => d

/-- The plain-segment update of the running value:
`value.get(part) if isinstance(value, dict) else None`. -/
def keyStepVal (v : Json) (nm : String) : Json :=
  objGetStep v nm .null

/-- `value[int(index)] if isinstance(value, list) else None`; `none` is the
`IndexError` that aborts the whole extraction. -/
def arrIndexStep : Json → Int → Option Json
  | .arr xs, i => pyIndex xs i
  | _, _ => some .null

/-- The indexed-segment update of the running value. -/
def idxStepVal (v : Json) (nm : String) (i : Int) : Option Json :=
  arrIndexStep (objGetStep v nm (.arr [])) i

/-- The tuple unpacking `part_name, index = part[:-1].split("[")`: `none` is
the `ValueError` raised when the split does not have exactly two pieces. -/
def parseIdxSeg : List (List Char) → Option (List Char × List Char)
  | [nm, idxStr] => some (nm, idxStr)
  | _ => none

/-- One walk over the already-split parts; `none` models an exception that
aborts the whole extraction. -/
def extractWalk : List (List Char) → Json → Option Json
  | [], v => some v
  | part :: rest, v =>
    if containsSubCh ['['] part ∧ containsSubCh [']'] part then
      (parseIdxSeg (pySplitCh '[' part.dropLast)).bind fun p =>
        (pyIntCh p.2).bind fun i =>
          (idxStepVal v ⟨p.1⟩ i).bind fun w => extractWalk rest w
    else
      extractWalk rest (keyStepVal v ⟨part⟩)


def extract_value_from_path (data : Json) (path : String) : Json :=
  (extractWalk (pySplitCh '.' path.data) data).getD .null

/-- Path segments of the spec's path grammar (§4.1): a mapping key, possibly
with one trailing `[<integer>]` index. -/
inductive Seg where
  | key : String → Seg
  | idx : String → Int → Seg

/-- Rendering of a segment back to its surface syntax. -/
def renderSeg : Seg → String
  | .key n => n
  | .idx n i => n ++ "[" ++ toString i ++ "]"

/-- Joining character runs with a dot separator. -/
def joinDotsCh : List (List Char) → List Char
  | [] => []
  | [p] => p
  | p :: rest => p ++ '.' :: joinDotsCh rest

/-- Rendering of a whole path (segments joined by dots). -/
def renderPath (segs : List Seg) : String :=
  ⟨joinDotsCh (segs.map fun s => (renderSeg s).data)⟩

/-- Well-formedness of a segment: names contain no separator or bracket
characters, and the decimal rendering of an index parses back to it. -/
def segWF : Seg → Prop
  | .key n => ¬ n.data.any (fun c => c = '.') ∧
      ¬ (n.data.any (fun c => c = '[') ∧ n.data.any (fun c => c = ']'))
  | .idx n i => ¬ n.data.any (fun c => c = '.' ∨ c = '[' ∨ c = ']') ∧
      pyIntCh (toString i).data = some i ∧
      ¬ (toString i).data.any (fun c => c = '.' ∨ c = '[' ∨ c = ']')

instance (s : Seg) : Decidable (segWF s) := by
  cases s <;> simp only [segWF] <;> infer_instance

/-- Index lookup on the result of a key lookup: only a present key holding a
sequence can be indexed. -/
def seekArr (o : Option Json) (i : Int) : Option Json :=
  match o with
  | some (.arr xs) => pyIndex xs i
  | _ => none

/-- Reference walk following the spec's words (§4.1): follow each segment
exactly; a missing key, a key lookup on a non-mapping, a non-sequence or
out-of-range index all fail. -/
def followSegs : Json → List Seg → Option Json
  | v, [] => some v
  | v, .key n :: rest =>
    match v with
    | .obj fs => (jLookup fs n).bind fun w => followSegs w rest
    | _ => none
  | v, .idx n i :: rest =>
    match v with
    | .obj fs => (seekArr (jLookup fs n) i).bind fun x => followSegs x rest
    | _ => none

/-!
### `scale_bytes_per_second` (utils.py lines 211-227)
-/

/-- `Decimal(str(raw).replace(",", "."))`: the rational value the conversion
produces, or `none` for the exception it raises.  For numeric values,
`str()` is value-faithful in this model (ints render exactly; floats by
their shortest round-trip literal, whose value is the one carried here). -/
def decimalOfJson : Json → Option ℚ
  | .num q => some q
  | .str s => decLitParse (s.data.map fun c => if c = ',' then '.' else c)
  | _ => none

def sbpsUnits : List String := ["B/s", "kB/s", "MB/s", "GB/s", "TB/s"]

/-- The `while bytes_per_second >= 1024 and unit_index < len(units) - 1`
loop; the fuel 4 equals the maximal number of iterations, so exhaustion
coincides with the loop condition turning false. -/
def sbpsGo : Nat → ℚ → Nat → ℚ × Nat
  | 0, q, idx => (q, idx)
  | f + 1, q, idx =>
    if 1024 ≤ q ∧ idx < 4 then sbpsGo f (q / 1024) (idx + 1) else (q, idx)

/-- Embedding of `scale_bytes_per_second(raw)`. -/
def scale_bytes_per_second (raw : Json) : Option String :=
  match raw with
  | .null => none
  | v =>
    match decimalOfJson v with
    | none => none
    | some q =>
      let p := sbpsGo 4 q 0
      some (toString (roundHalfUpInt p.1) ++ " " ++ sbpsUnits.getD p.2 "B/s")

/-!
### Value formatting (utils.py lines 12-208)

`format_timestamp` renders local wall-clock time via `datetime`, and the
status-code tables interpolate `str(raw)` of an arbitrary value; both are
runtime-environment behaviour rather than arithmetic, so they enter the
embedding as an explicit environment parameter.
-/

structure PyEnv where
  /-- Python `str(raw)` rendering of a value (used in the
  `f"Unknown status: {raw}"` and `f"Invalid value: {raw}"` interpolations). -/
  strRepr : Json → String
  /-- The `datetime.fromtimestamp(float(raw)).strftime(...)` body of
  `format_timestamp`, including its `except` branch. -/
  fmtTs : Json → String

/-- Embedding of `format_timestamp` (utils.py lines 102-110): only the
`raw is None` guard is computed here; the rest is the environment's. -/
def format_timestamp (env : PyEnv) (raw : Json) : String :=
  match raw with
  | .null => "N/A"
  | v => env.fmtTs v

def unitExp (u : String) : Option Nat :=
  if u = "B" then some 0
  else if u = "kB" then some 1
  else if u = "MB" then some 2
  else if u = "GB" then some 3
  else if u = "TB" then some 4
  else if u = "PB" then some 5
  else none

/-- `size_bytes.quantize(Decimal("1.00..."), rounding=ROUND_HALF_UP)`. -/
def quantizeHalfUp (dp : Nat) (q : ℚ) : ℚ :=
  (roundHalfUpInt (q * (10 : ℚ) ^ dp) : ℚ) / (10 : ℚ) ^ dp

/-- The six-iteration `for _ in ['B', 'kB', 'MB', 'GB', 'TB', 'PB']` loop of
`format_dynamic_size`: return the first magnitude below 1024, falling
through to the six-times-divided value. -/
def fdsGo : Nat → ℚ → ℚ
  | 0, q => q
  | f + 1, q => if q < 1024 then q else fdsGo f (q / 1024)

/-- Embedding of `format_dynamic_size(raw, input_unit, decimal_places)`
(utils.py lines 12-38). -/
def format_dynamic_size (raw : Json) (input_unit : String) (dp : Nat) :
    Option ℚ :=
  match raw, unitExp input_unit with
  | .null, _ => none
  | _, none => none
  | v, some e =>
    match decimalOfJson v with
    | none => none
    | some size => some (quantizeHalfUp dp (fdsGo 6 (size * (1024 : ℚ) ^ e)))

/-- Embedding of `format_temperature(raw)` (utils.py lines 84-91):
`int(round(float(raw)))` with `Decimal(0)` on `None` or failure. -/
def format_temperature (raw : Json) : Json :=
  match raw with
  | .null => .num 0
  | .num q => .num (bankersRoundInt q : ℚ)
  | .bool b => .num (if b then 1 else 0)
  | .str s =>
    match decLitParse s.data with
    | some q => .num (bankersRoundInt q : ℚ)
    | none => .num 0
  | _ => .num 0

/-- Embedding of `format_percentage(raw)` (utils.py lines 93-100):
`Decimal(str(round(float(raw), 1)))` with `Decimal(0)` on `None`/failure. -/
def format_percentage (raw : Json) : Json :=
  match raw with
  | .null => .num 0
  | .num q => .num (bankersAt 1 q)
  | .bool b => .num (if b then 1 else 0)
  | .str s =>
    match decLitParse s.data with
    | some q => .num (bankersAt 1 q)
    | none => .num 0
  | _ => .num 0

/-- Embedding of `format_status_code(raw, status_map)` (utils.py 112-117). -/
def format_status_code (env : PyEnv) (raw : Json)
    (statusMap : List (Int × String)) : String :=
  match pyToInt raw with
  | some i =>
    match statusMap.lookup i with
    | some s => s
    | none => "Unknown status: " ++ env.strRepr raw
  | none => "Invalid value: " ++ env.strRepr raw

/-- Embedding of `format_frequency_mhz(raw)` (utils.py lines 119-125). -/
def format_frequency_mhz (raw : Json) : Json :=
  match raw with
  | .str s =>
    if pyContains s "MHz" then
      let cleaned := pyStripCh (eraseSubCh "MHz".data (s.data.length + 1) s.data)
      if cleaned ≠ [] ∧ cleaned.all Char.isDigit then
        .num ((digitsVal cleaned).getD 0 : ℚ)
      else .str s
    else .str s
  | v => v

/-- Embedding of `convert_string_to_number(value, decimal_places)`
(utils.py lines 127-143).  `float(...)` and the `Decimal(...)` fallback
accept the same decimal literals in this model, so the fallback merges into
the one parse. -/
def convert_string_to_number (value : Json) (dp : Nat) : Json :=
  match value with
  | .str s =>
    let v : List Char := (pyStripCh s.data).map fun c => if c = ',' then '.' else c
    if v = [] then .str ⟨v⟩
    else if v.any fun c => c = '.' then
      match decLitParse v with
      | some q => .num (bankersAt dp q)
      | none => .str ⟨v⟩
    else
      match pyIntCh v with
      | some i => .num (i : ℚ)
      | none =>
        match decLitParse v with
        | some q => .num (bankersAt dp q)
        | none => .str ⟨v⟩
  | v => v

structure EntityDescription where
  key : String
  name : Option String := none
  icon : Option String := none
  unit_of_measurement : Option String := none

structure UgreenEntity where
  description : EntityDescription
  endpoint : String
  /-- `path: str` in the dataclass; `none` models a non-string value put
  there at runtime (the fetch engine guards with `isinstance(path, str)`). -/
  path : Option String
  request_method : String := "GET"
  decimal_places : Nat := 2
  nas_part_category : Option String := some ""

/-- `unit is not None and unit in (...)` (membership, or equality for a
singleton list). -/
def unitIn (u : Option String) (xs : List String) : Bool :=
  match u with
  | some s => xs.contains s
  | none => false

/-- `isinstance(name, str) and "Timestamp" in name`. -/
def nameHasTimestamp (nm : Option String) : Bool :=
  match nm with
  | some n => pyContains n "Timestamp"
  | none => false

/-- Embedding of `format_sensor_value(raw, endpoint)` (utils.py 145-208),
reproducing the dispatch order of the source exactly, including the
mis-encoded degree sign `"Â°C"` in the temperature branch. -/
def format_sensor_value (env : PyEnv) (raw : Json) (e : UgreenEntity) : Json :=
  let k := e.description.key
  let u := e.description.unit_of_measurement
  if unitIn u ["B", "kB", "MB", "GB", "TB"] then
    match format_dynamic_size raw (u.getD "") e.decimal_places with
    | some q => .num q
    | none => .null
  else if nameHasTimestamp e.description.name then
    .str (format_timestamp env raw)
  else if pyContains k "server_status" then
    .str (format_status_code env raw [(2, "Normal")])
  else if pyContains k "disk" && pyContains k "status" then
    .str (format_status_code env raw [(1, "Normal")])
  else if pyContains k "fan" && pyContains k "overall" then
    .str (format_status_code env raw [(0, "Normal")])
  else if pyContains k "fan" && pyContains k "status" then
    .str (format_status_code env raw [(0, "ERROR!"), (1, "Normal")])
  else if pyContains k "disk" && !pyContains k "interface"
      && pyContains k "type" then
    .str (format_status_code env raw [(0, "HDD"), (1, "SSD"), (2, "M.2")])
  else if pyContains k "volume" && pyContains k "health" then
    .str (format_status_code env raw [(0, "Normal")])
  else if pyContains k "USB_device_type" then
    .str (format_status_code env raw [(0, "Generic USB Device")])
  else if unitIn u ["%"] then
    format_percentage raw
  else if unitIn u ["Â°C"] then
    format_temperature raw
  else if unitIn u ["kB/s", "MB/s", "GB/s"] then
    match format_dynamic_size raw (u.getD "") e.decimal_places with
    | some q => .num q
    | none => .null
  else if unitIn u ["MHz"] then
    format_frequency_mhz raw
  else
    convert_string_to_number raw e.decimal_places

/-!
### Template expansion and entity building (utils.py lines 279-345)

`str.format` is modelled for the plain `{name}` replacement fields the
template tables use (no `{{`/`}}` escapes, no conversion or format specs):
the field name is looked up in the keyword set, a missing name is the
`KeyError` the source lets escape, and a stray brace is the `ValueError`
CPython raises for an unmatched brace.
-/

/-- Read a replacement-field name up to the closing brace; `none` when the
brace is never closed. -/
def splitBrace : List Char → Option (List Char × List Char)
  | [] => none
  | c :: cs =>
    if c = '\x7d' then some ([], cs)
    else
      match splitBrace cs with
      | some p => some (c :: p.1, p.2)
      | none => none

def lookupParam (ps : List (String × String)) (n : List Char) : Option String :=
  match ps with
  | [] => none
  | kv :: rest => if kv.1.data = n then some kv.2 else lookupParam rest n

def pyFormatAux (ps : List (String × String)) : Nat → List Char → Option (List Char)
  | 0, _ => none
  | _ + 1, [] => some []
  | f + 1, c :: cs =>
    if c = '\x7b' then
      (splitBrace cs).bind fun nr =>
        (lookupParam ps nr.1).bind fun v =>
          (pyFormatAux ps f nr.2).map fun t => v.data ++ t
    else if c = '\x7d' then none
    else (pyFormatAux ps f cs).map fun t => c :: t

/-- `s.format(**ps)` under the restriction above; the fuel `length + 1`
strictly dominates the consumed characters, so it never runs out. -/
def pyFormat (ps : List (String × String)) (s : String) : Option String :=
  (pyFormatAux ps (s.data.length + 1) s.data).map String.mk

/-- Formatting of an optional string field: a string formats (possibly
raising `KeyError`), `None` passes through. -/
def fmtOptStr (fmt : List (String × String)) (o : Option String) :
    Option (Option String) :=
  match o with
  | some a => (pyFormat fmt a).map some
  | none => some none

/-- Formatting of the `path` field: `t.path.format(...)` raises
`AttributeError` when the field is not a string. -/
def fmtPath (fmt : List (String × String)) (o : Option String) :
    Option String :=
  match o with
  | some p => pyFormat fmt p
  | none => none

/-- One template instantiated with one keyword set, the loop body of
`apply_templates` (utils.py lines 283-297); `none` is a raised
`KeyError`/`AttributeError`. -/
def applyTemplate (fmt : List (String × String)) (t : UgreenEntity) :
    Option UgreenEntity := do
  let key ← pyFormat fmt t.description.key
  let name ← fmtOptStr fmt t.description.name
  let ep ← pyFormat fmt t.endpoint
  let path ← fmtPath fmt t.path
  let cat ← fmtOptStr fmt t.nas_part_category
  let desc : EntityDescription :=
    { key := key, name := name, icon := t.description.icon,
      unit_of_measurement := t.description.unit_of_measurement }
  pure { description := desc, endpoint := ep, path := some path,
         request_method := t.request_method,
         decimal_places := t.decimal_places,
         nas_part_category := cat }

/-- Embedding of `apply_templates(templates, **fmt)`: the `for` loop
appends one instantiated entity per template, and a raised exception aborts
the whole build. -/
def apply_templates (templates : List UgreenEntity)
    (fmt : List (String × String)) : Option (List UgreenEntity) :=
  match templates with
  | [] => some []
  | t :: rest =>
    (applyTemplate fmt t).bind fun e =>
      (apply_templates rest fmt).map fun es => e :: es

/-- The keyword set `make_entities` passes to `apply_templates` for one
instance. -/
def makeFmtParams (i idx_num : Nat)
    (prefix_key prefix_name endpoint category : String) :
    List (String × String) :=
  [("i", toString i), ("series_index", toString idx_num),
   ("prefix_key", prefix_key), ("prefix_name", prefix_name),
   ("endpoint", endpoint), ("category", category)]

/-- The `for i in range(n)` loop of `make_entities`, iterating over the
remaining count with the current 0-based `i`. -/
def makeEntLoop (templates : List UgreenEntity)
    (endpoint prefix_key_base prefix_name_base category : String)
    (index_start : Nat) (single : Bool) : Nat → Nat → Option (List UgreenEntity)
  | 0, _ => some []
  | rem + 1, i =>
    let idx_num := i + index_start
    let idx_txt := if single then "" else toString idx_num
    let pk := prefix_key_base ++ idx_txt
    let pn := prefix_name_base ++ (if single then "" else " " ++ toString idx_num)
    (apply_templates templates
        (makeFmtParams i idx_num pk pn endpoint category)).bind fun es =>
      (makeEntLoop templates endpoint prefix_key_base prefix_name_base category
        index_start single rem (i + 1)).map fun rest => es ++ rest

/-- Embedding of `make_entities(...)` (utils.py lines 301-345); `none` is a
raised exception (a `KeyError` from formatting or a `TypeError` from
`len()` on a non-sized extraction result). -/
def make_entities (fetch : Option (String → Json))
    (templates : List UgreenEntity) (endpoint : String)
    (prefix_key_base prefix_name_base category : String)
    (list_path : Option String) (count : Option Int) (index_start : Nat)
    (single_compact : Bool) : Option (List UgreenEntity) :=
  let build : Nat → Option (List UgreenEntity) := fun n =>
    if n = 0 then some []
    else
      makeEntLoop templates endpoint prefix_key_base prefix_name_base category
        index_start (n = 1 && single_compact) n 0
  match list_path with
  | some lp =>
    match fetch with
    | none => some []
    | some f =>
      let data := f endpoint
      let items := pyOr (extract_value_from_path (pyOr data (.obj [])) lp) (.arr [])
      match pyLen items with
      | .error _ => none
      | .ok n => build n
  | none => build (max 0 (count.getD 0)).toNat

/-!
### The data-fetch engine `get_entity_data_from_api` (utils.py 247-276)

`api.get` enters as an oracle `String → Option Json`; `none` is the
transport exception the `except` on the fetch catches.  The function is
instrumented to also return the list of endpoints it requested, in order.
-/

/-- The values summed by the `calculated:ram_total_size` marker: every value
already in the output map whose key starts with `RAM` and ends with
`_size`, in insertion order. -/
def ramSizeValues (data : List (String × Json)) : List Json :=
  (data.filter fun kv =>
    pyStartsWith kv.1 "RAM" && pyEndsWith kv.1 "_size").map Prod.snd

/-- Python `sum(...)`: numbers and booleans add; anything else (including
`None`) is the `TypeError` the per-entity `except` catches. -/
def pySum : List Json → Option ℚ
  | [] => some 0
  | v :: rest =>
    match v with
    | .num q => (pySum rest).map fun t => q + t
    | .bool b => (pySum rest).map fun t => (if b then (1 : ℚ) else 0) + t
    | _ => none

/-- `path.split(":", 2)[2]` under the
`startswith("calculated:scale_bytes_per_second:")` guard: the remainder
after the second colon. -/
def sbpsInnerPath (p : String) : String :=
  ⟨p.data.drop "calculated:scale_bytes_per_second:".length⟩

/-- The per-entity value computation for a descriptor whose `path` is the
string `p` (utils.py lines 260-271): direct paths extract from the
response, `calculated:` markers dispatch.  `.error ()` is an exception
raised before the local `value` was assigned — the `sum` `TypeError` —
which the per-entity `except` catches into a null assignment while
leaving the loop-carried `value` local untouched. -/
def entityValueE (data : List (String × Json)) (response : Json)
    (p : String) : Except Unit Json :=
  if !pyStartsWith p "calculated:" then
    .ok (extract_value_from_path response p)
  else if pyStartsWith p "calculated:ram_total_size" then
    match pySum (ramSizeValues data) with
    | some q => .ok (.num q)
    | none => .error ()
  else if pyStartsWith p "calculated:scale_bytes_per_second:" then
    .ok (match scale_bytes_per_second
        (extract_value_from_path response (sbpsInnerPath p)) with
      | some str => .str str
      | none => .null)
  else .ok .null

/-- The value stored under a string-path descriptor's key: the computed
value, with a raised exception caught into null by the per-entity
`except`. -/
def entityValue (data : List (String × Json)) (response : Json)
    (p : String) : Json :=
  match entityValueE data response p with
  | .ok v => v
  | .error _ => .null

/-- What `data[entity.description.key] = value` stores (utils.py line
272).  For a string path, the computed value with a raised exception
caught into null.  For a non-string path both `isinstance` guards fail,
no branch assigns `value`, and the statement reuses whatever the previous
iteration left in the function-scoped `value` local (`reg`); on the very
first descriptor `value` is still unbound, and the resulting `NameError`
is caught into null. -/
def entityStepVal (data : List (String × Json)) (reg : Option Json)
    (response : Json) (e : UgreenEntity) : Json :=
  match e.path with
  | some p => entityValue data response p
  | none =>
    match reg with
    | some v => v
    | none => .null

/-- How the function-scoped `value` local evolves across descriptors: a
completed assignment replaces it; a raised exception or a skipped
assignment leaves it unchanged. -/
def entityStepReg (data : List (String × Json)) (reg : Option Json)
    (response : Json) (e : UgreenEntity) : Option Json :=
  match e.path with
  | some p =>
    match entityValueE data response p with
    | .ok v => some v
    | .error _ => reg
  | none => reg

/-- `for entity in entities` over one endpoint's successful response,
threading the function-scoped `value` local. -/
def fetchEntities (data : List (String × Json)) (reg : Option Json)
    (response : Json) :
    List UgreenEntity → List (String × Json) × Option Json
  | [] => (data, reg)
  | e :: rest =>
    fetchEntities
      (dictSet data e.description.key (entityStepVal data reg response e))
      (entityStepReg data reg response e) response rest

/-- The `except` arm of a failed endpoint fetch: every entity of the
endpoint gets `None` (the `value` local is not touched). -/
def assignNulls (data : List (String × Json)) :
    List UgreenEntity → List (String × Json)
  | [] => data
  | e :: rest => assignNulls (dictSet data e.description.key .null) rest

def fetchLoop (apiGet : String → Option Json) :
    List (String × List UgreenEntity) → List (String × Json) → Option Json →
    List (String × Json) × List String
  | [], data, _ => (data, [])
  | epe :: rest, data, reg =>
    let step :=
      match apiGet epe.1 with
      | none => (assignNulls data epe.2, reg)
      | some resp => fetchEntities data reg resp epe.2
    let r := fetchLoop apiGet rest step.1 step.2
    (r.1, epe.1 :: r.2)

/-- Embedding of `get_entity_data_from_api(api, session, endpoint_to_entities)`,
returning the output map and the requested endpoints in order; the
`value` local starts the call unbound. -/
def get_entity_data_from_api (apiGet : String → Option Json)
    (eps : List (String × List UgreenEntity)) :
    List (String × Json) × List String :=
  fetchLoop apiGet eps [] none

/-!
### `UgreenApiClient._request` (api.py lines 612-641)

The embedding abstracts the transport: `login` is the outcome of the k-th
`self.login(session)` call of this request, and `doReq` the outcome of the
k-th `_do()` issue (`exn` being a raised transport error, caught by the
enclosing `try`).  The value returned is the response handed to the caller
together with how many logins were attempted and how many requests were
issued.
-/

inductive DoResult where
  | exn : DoResult
  | ok : Json → DoResult

/-- `data.get("code")`: raises when the parsed response is not a mapping. -/
def getCode (j : Json) : Except Unit (Option Json) :=
  match j with
  | .obj fs => .ok (jLookup fs "code")
  | _ => .error ()

/-- `data.get("code") == 1024`. -/
def isCode1024 (c : Option Json) : Bool :=
  match c with
  | some (.num q) => q = 1024
  | _ => false

/-- The 1024 recovery arm: one forced re-login, then at most one reissue
whose outcome is returned as-is (`.exn` surfacing as the caught empty
mapping). -/
def reqRetry (l0 : Nat) (login : Nat → Bool) (doReq : Nat → DoResult)
    (data : Json) (c : Option Json) : Json × Nat × Nat :=
  if isCode1024 c then
    if login l0 then
      match doReq 1 with
      | .exn => (.obj [], l0 + 1, 2)
      | .ok d2 => (d2, l0 + 1, 2)
    else (.obj [], l0 + 1, 1)
  else (data, l0, 1)

/-- The `data.get("code")` step, with its `AttributeError` caught by the
outer `try`. -/
def reqOnFirst (l0 : Nat) (login : Nat → Bool) (doReq : Nat → DoResult) :
    DoResult → Json × Nat × Nat
  | .exn => (.obj [], l0, 1)
  | .ok data =>
    match getCode data with
    | .error _ => (.obj [], l0, 1)
    | .ok c => reqRetry l0 login doReq data c

/-- Embedding of `_request`: `(response, logins attempted, requests issued)`.
`Json.obj []` is the empty mapping `{}` the source returns on failure. -/
def requestRun (hasToken : Bool) (login : Nat → Bool) (doReq : Nat → DoResult) :
    Json × Nat × Nat :=
  if !hasToken && !login 0 then (.obj [], 1, 0)
  else reqOnFirst (if hasToken then 0 else 1) login doReq (doReq 0)

/-!
### `UgreenApiClient.count_dynamic_entities` (api.py lines 653-717)

`self.get` never raises (it returns `{}` on every failure), so the probe's
oracle is a total `String → Json`.  The `Except Unit` channel carries a
raised exception inside the `try` body (an `.get` on a non-mapping, a
`len()` of a non-sized value, a `.strip()` on a non-string), which the
enclosing `except` turns into the empty counts mapping.
-/

def sysinfoEndpoint : String := "/ugreen/v1/sysinfo/machine/common"
def diskListEndpoint : String := "/ugreen/v2/storage/disk/list"
def poolListEndpoint : String := "/ugreen/v1/storage/pool/list"
def statEndpoint : String := "/ugreen/v1/taskmgr/stat/get_all"

/-- Probe step 1: RAM / USB / UPS from the sysinfo response. -/
def probeSysinfo (sysinfo : Json) (counts : List (String × Json)) :
    Except Unit (List (String × Json)) :=
  match sysinfo with
  | .obj fs => do
    let hw0 := pyOr (jGetD fs "data" (.obj [])) (.obj [])
    let hw1 ← pyGetD hw0 "hardware" (.obj [])
    let hw := pyOr hw1 (.obj [])
    let mem ← pyGetD hw "mem" (.arr [])
    let nRams ← pyLen (pyOr mem (.arr []))
    let usb ← pyGetD hw "usb" (.arr [])
    let nUsbs ← pyLen (pyOr usb (.arr []))
    let ups ← pyGetD hw "ups" (.arr [])
    let hasUps := pyTruthy (pyOr ups (.arr []))
    .ok (dictSet (dictSet (dictSet counts
      "num_rams" (.num nRams)) "num_usbs" (.num nUsbs)) "has_ups" (.bool hasUps))
  | _ => .ok counts

/-- Probe step 2: disk count. -/
def probeDisks (resp : Json) (counts : List (String × Json)) :
    Except Unit (List (String × Json)) :=
  match resp with
  | .obj fs => do
    let d := pyOr (jGetD fs "data" (.obj [])) (.obj [])
    let r ← pyGetD d "result" (.arr [])
    let n ← pyLen (pyOr r (.arr []))
    .ok (dictSet counts "num_disks" (.num n))
  | _ => .ok counts

/-- Probe step 3: pool count and summed volume count. -/
def probePools (resp : Json) (counts : List (String × Json)) :
    Except Unit (List (String × Json)) :=
  match resp with
  | .obj fs => do
    let d := pyOr (jGetD fs "data" (.obj [])) (.obj [])
    let r ← pyGetD d "result" (.arr [])
    let pools := pyOr r (.arr [])
    let nPools ← pyLen pools
    let items ← pyIter pools
    let vols ← items.mapM fun p => do
      let v ← pyGetD p "volumes" (.arr [])
      pyLen (pyOr v (.arr []))
    .ok (dictSet (dictSet counts "num_pools" (.num nPools))
      "num_volumes" (.num (vols.foldl (fun a b => a + b) 0)))
  | _ => .ok counts

def overviewAliases : List String := ["overview", "Overview", "Übersicht"]

/-- `x.get("name") not in ("overview", "Overview", "Übersicht")`. -/
def nameNotOverview (x : Json) : Except Unit Bool := do
  let nm ← pyGetD x "name" .null
  .ok (match nm with
    | .str a => !overviewAliases.contains a
    | _ => true)

/-- `if isinstance(fans, dict): fans = [fans]` — the single-object fan
normalization. -/
def normFans (v : Json) : Json :=
  match v with
  | .obj fs => .arr [.obj fs]
  | _ => v

/-- `any((g.get("gpu_name") or "").strip() for g in gpu_series)` — lazy, so
an element after the first hit is never evaluated. -/
def gpuAny : List Json → Except Unit Bool
  | [] => .ok false
  | g :: rest => do
    let nm ← pyGetD g "gpu_name" .null
    match pyOr nm (.str "") with
    | .str a => if pyStrip a ≠ "" then .ok true else gpuAny rest
    | _ => .error ()

/-- `stat.get("code") == 200`. -/
def codeIs200 (fs : List (String × Json)) : Bool :=
  match jLookup fs "code" with
  | some (.num q) => q = 200
  | _ => false

/-- Probe step 4: NICs, fans and GPU from the stat snapshot. -/
def probeStat (stat : Json) (counts : List (String × Json)) :
    Except Unit (List (String × Json)) :=
  match stat with
  | .obj fs =>
    if codeIs200 fs then do
      let sdata := pyOr (jGetD fs "data" (.obj [])) (.obj [])
      let net ← pyGetD sdata "net" (.obj [])
      let series0 ← pyGetD (pyOr net (.obj [])) "series" (.arr [])
      let items ← pyIter (pyOr series0 (.arr []))
      let flags ← items.mapM nameNotOverview
      let nNics := (flags.filter fun b => b).length
      let ov ← pyGetD sdata "overview" (.obj [])
      let overview := pyOr ov (.obj [])
      let cpuRaw ← pyGetD overview "cpu_fan" .null
      let cpu_fans := normFans (pyOr cpuRaw (.arr []))
      let devRaw ← pyGetD overview "device_fan" .null
      let dev_fans := normFans (pyOr devRaw (.arr []))
      let nCpu ← pyLen cpu_fans
      let nDev ← pyLen dev_fans
      let gpu ← pyGetD sdata "gpu" (.obj [])
      let gseries ← pyGetD (pyOr gpu (.obj [])) "series" (.arr [])
      let gitems ← pyIter (pyOr gseries (.arr []))
      let hasGpu ← gpuAny gitems
      .ok (dictSet (dictSet (dictSet (dictSet (dictSet counts
        "num_nics" (.num nNics))
        "has_cpu_fan" (.bool (0 < nCpu)))
        "num_device_fans" (.num nDev))
        "has_device_fan" (.bool (0 < nDev)))
        "has_gpu" (.bool hasGpu))
    else .ok counts
  | _ => .ok counts

/-- The whole `try` body of `count_dynamic_entities`, instrumented with the
endpoints requested so far (a raised exception keeps the requests already
issued). -/
def countProbe (get : String → Json) :
    Except Unit (List (String × Json)) × List String :=
  match probeSysinfo (get sysinfoEndpoint) [] with
  | .error e => (.error e, [sysinfoEndpoint])
  | .ok c1 =>
    match probeDisks (get diskListEndpoint) c1 with
    | .error e => (.error e, [sysinfoEndpoint, diskListEndpoint])
    | .ok c2 =>
      match probePools (get poolListEndpoint) c2 with
      | .error e => (.error e, [sysinfoEndpoint, diskListEndpoint,
          poolListEndpoint])
      | .ok c3 =>
        match probeStat (get statEndpoint) c3 with
        | .error e => (.error e, [sysinfoEndpoint, diskListEndpoint,
            poolListEndpoint, statEndpoint])
        | .ok c4 => (.ok c4, [sysinfoEndpoint, diskListEndpoint,
            poolListEndpoint, statEndpoint])

/-- Embedding of `count_dynamic_entities`: sequential state machine over the
cached `self._dynamic_entity_counts` (the lock serializes concurrent
callers; each serialized call behaves as below).  Returns the counts, the
new cache, and the endpoints requested during the call. -/
def count_dynamic_entities (get : String → Json)
    (cache : Option (List (String × Json))) :
    List (String × Json) × Option (List (String × Json)) × List String :=
  match cache with
  | some c => (c, some c, [])
  | none =>
    match countProbe get with
    | (.ok cs, reqs) => (cs, some cs, reqs)
    | (.error _, reqs) => ([], some [], reqs)

/-- The CPU-temperature descriptor of the repository's entity table
(entities.py lines 251-262): its unit is `UnitOfTemperature.CELSIUS`, the
properly encoded `"°C"`. -/
def cpuTempDesc : UgreenEntity :=
  { description :=
      { key := "cpu_temperature", name := some "CPU Temperature",
        icon := some "mdi:thermometer", unit_of_measurement := some "°C" },
    endpoint := "/ugreen/v1/taskmgr/stat/get_all",
    path := some "data.overview.cpu[0].temp",
    decimal_places := 0,
    nas_part_category := some "Status" }

/-- The same descriptor with the mis-encoded unit string the dispatch in
`format_sensor_value` actually compares against. -/
def cpuTempDescMojibake : UgreenEntity :=
  { description :=
      { key := "cpu_temperature", name := some "CPU Temperature",
        icon := some "mdi:thermometer", unit_of_measurement := some "Â°C" },
    endpoint := "/ugreen/v1/taskmgr/stat/get_all",
    path := some "data.overview.cpu[0].temp",
    decimal_places := 0,
    nas_part_category := some "Status" }

/-- A descriptor whose extraction path is an unknown-name `calculated:`
marker that nevertheless extends `calculated:ram_total_size` as a prefix. -/
def weirdEnt : UgreenEntity :=
  { description := { key := "ram_total" }, endpoint := "/a",
    path := some "calculated:ram_total_sizes" }

/-- A descriptor carrying exactly the aggregate marker. -/
def ramTotalEnt : UgreenEntity :=
  { description := { key := "ram_total_size" }, endpoint := "/a",
    path := some "calculated:ram_total_size" }

/-- A stat response whose `cpu_fan` and `device_fan` are single objects,
not arrays. -/
def statWithFans (cpuF devF : List (String × Json)) : Json :=
  .obj [("code", .num 200),
    ("data", .obj [("overview",
      .obj [("cpu_fan", .obj cpuF), ("device_fan", .obj devF)])])]

/-- A device whose stat endpoint reports single-object fans and whose other
probe endpoints answer with empty mappings. -/
def fanOracle (cpuF devF : List (String × Json)) : String → Json :=
  fun ep => if ep = statEndpoint then statWithFans cpuF devF else .obj []

/-- The keys of a list of descriptors, in order. -/
def keysOfEntities (es : List UgreenEntity) : List String :=
  es.map fun e => e.description.key

/-- Demonstration descriptors for a two-endpoint fetch cycle. -/
def demoOkEnt : UgreenEntity :=
  { description := { key := "a_val" }, endpoint := "/ok", path := some "data.v" }

def demoResp : Json := .obj [("data", .obj [("v", .num 9)])]

/-- A transport that answers on `/ok` and fails on everything else. -/
def demoApi : String → Option Json :=
  fun ep => if ep = "/ok" then some demoResp else none

/-- Absence of both brace characters in a character run. -/
def braceFreeCh (cs : List Char) : Bool :=
  cs.all fun c => c ≠ '\x7b' && c ≠ '\x7d'

/-- A descriptor whose `path` field holds a non-string value at runtime. -/
def demoNonStrEnt : UgreenEntity :=
  { description := { key := "c_val" }, endpoint := "/ok", path := none }

/-- The numeric value of a most-significant-first run of decimal digit
characters, used to reason about `Nat.repr`. -/
def decValCh (cs : List Char) : Nat :=
  cs.foldl (fun a c => 10 * a + (c.toNat - 48)) 0

/-- The unit index the spec describes: divide by 1024 until the magnitude is
below 1024 or the five units are exhausted. -/
def specScaleIdx (q : ℚ) : Nat :=
  if q < 1024 then 0
  else if q < 1024 ^ 2 then 1
  else if q < 1024 ^ 3 then 2
  else if q < 1024 ^ 4 then 3
  else 4

/-- Brace-freeness lifted to an optional string (`none` passes). -/
def braceFreeOpt : Option String → Bool
  | some s => braceFreeCh s.data
  | none => true

/-- A template following the naming convention the entity tables use: the
key is `\x7bprefix_key\x7d` followed by a fixed brace-free suffix, and
every other formatted field is brace-free (so formatting it is the
identity and never raises `KeyError`). -/
def tmplKeyed (suf : String) (t : UgreenEntity) : Prop :=
  t.description.key = "{prefix_key}" ++ suf ∧
  braceFreeCh suf.data = true ∧
  braceFreeOpt t.description.name = true ∧
  braceFreeCh t.endpoint.data = true ∧
  t.path.isSome = true ∧ braceFreeOpt t.path = true ∧
  braceFreeOpt t.nas_part_category = true

/-- A template whose key ignores the placeholder scheme entirely. -/
def fooTmpl : UgreenEntity :=
  { description := { key := "foo" }, endpoint := "/sys", path := some "p" }

/-- Two convention-following demonstration templates. -/
def demoTmplA : UgreenEntity :=
  { description := { key := "{prefix_key}_temp" }, endpoint := "/sys",
    path := some "a" }

def demoTmplB : UgreenEntity :=
  { description := { key := "{prefix_key}_size" }, endpoint := "/sys",
    path := some "b" }

/-! ### Lemmas and claim theorems -/

theorem strDataAppend (a b : String) : (a ++ b).data = a.data ++ b.data := rfl

theorem containsSubCh_one (c : Char) (cs : List Char) :
    containsSubCh [c] cs = cs.any fun x => x = c := by
  induction cs with
  | nil => rfl
  | cons x rest ih =>
    have hd : decide (c = x) = decide (x = c) := by simp [eq_comm]
    simp only [containsSubCh, isPrefixCh, List.any_cons, ih, Bool.and_true, hd]


theorem pySplitCh_no_sep (sep : Char) (cs : List Char)
    (h : ¬ cs.any fun c => c = sep) : pySplitCh sep cs = [cs] := by
  induction cs with
  | nil => rfl
  | cons c rest ih =>
    simp only [List.any_cons, Bool.or_eq_true, decide_eq_true_eq] at h
    push_neg at h
    rw [pySplitCh, ih (by simpa using h.2)]
    simp [h.1]

theorem pySplitCh_append (sep : Char) (p cs : List Char)
    (h : ¬ p.any fun c => c = sep) :
    pySplitCh sep (p ++ sep :: cs) = p :: pySplitCh sep cs := by
  induction p with
  | nil => simp [pySplitCh]
  | cons c p' ih =>
    simp only [List.any_cons, Bool.or_eq_true, decide_eq_true_eq] at h
    push_neg at h
    rw [List.cons_append, pySplitCh, ih (by simpa using h.2)]
    simp [h.1]

theorem pySplitCh_join (parts : List (List Char)) (hne : parts ≠ [])
    (h : ∀ p ∈ parts, ¬ p.any fun c => c = '.') :
    pySplitCh '.' (joinDotsCh parts) = parts := by
  induction parts with
  | nil => exact absurd rfl hne
  | cons p rest ih =>
    match rest with
    | [] => exact pySplitCh_no_sep _ _ (h p (by simp))
    | q :: rest' =>
      rw [show joinDotsCh (p :: q :: rest') = p ++ '.' :: joinDotsCh (q :: rest')
          from rfl]
      rw [pySplitCh_append _ _ _ (h p (by simp)),
        ih (by simp) (fun r hr => h r (List.mem_cons_of_mem _ hr))]

theorem pyIndex_nil (i : Int) : pyIndex [] i = none := by
  unfold pyIndex
  split <;> [skip; split] <;> simp [List.get?]

theorem renderSeg_idx_data (n : String) (i : Int) :
    (renderSeg (.idx n i)).data
      = (n.data ++ '[' :: (toString i).data) ++ [']'] := by
  show (n ++ "[" ++ toString i ++ "]").data = _
  simp [strDataAppend]

theorem renderSeg_no_dot (s : Seg) (h : segWF s) :
    ¬ (renderSeg s).data.any fun c => c = '.' := by
  cases s with
  | key n => exact h.1
  | idx n i =>
    obtain ⟨h1, _, h3⟩ := h
    rw [renderSeg_idx_data]
    simp only [List.any_eq_true, decide_eq_true_eq] at h1 h3 ⊢
    push_neg at h1 h3 ⊢
    intro c hc
    rcases List.mem_append.1 hc with hc | hc
    · rcases List.mem_append.1 hc with hc | hc
      · exact (h1 c hc).1
      · rcases List.mem_cons.1 hc with rfl | hc
        · decide
        · exact (h3 c hc).1
    · rcases List.mem_cons.1 hc with rfl | hc
      · decide
      · cases hc

theorem extractWalk_key_cond (n : String) (h2 :
    ¬ ((n.data.any fun c => c = '[') ∧ (n.data.any fun c => c = ']'))) :
    ¬ (containsSubCh ['['] n.data ∧ containsSubCh [']'] n.data) := by
  rw [containsSubCh_one, containsSubCh_one]
  exact fun hc => h2 ⟨hc.1, hc.2⟩

theorem extractWalk_idx_split (n : String) (i : Int)
    (h1 : ∀ x ∈ n.data, x ≠ '.' ∧ x ≠ '[' ∧ x ≠ ']')
    (h3 : ∀ x ∈ (toString i).data, x ≠ '.' ∧ x ≠ '[' ∧ x ≠ ']') :
    pySplitCh '[' ((n.data ++ '[' :: (toString i).data) ++ [']']).dropLast
      = [n.data, (toString i).data] := by
  rw [List.dropLast_concat]
  rw [pySplitCh_append _ _ _ (by
    simp only [List.any_eq_true, decide_eq_true_eq]
    push_neg
    exact fun c hc => (h1 c hc).2.1)]
  rw [pySplitCh_no_sep _ _ (by
    simp only [List.any_eq_true, decide_eq_true_eq]
    push_neg
    exact fun c hc => (h3 c hc).2.1)]

theorem extractWalk_idx_cond (n : String) (i : Int) :
    containsSubCh ['['] ((n.data ++ '[' :: (toString i).data) ++ [']'])
      ∧ containsSubCh [']'] ((n.data ++ '[' :: (toString i).data) ++ [']']) := by
  constructor <;> rw [containsSubCh_one] <;>
    simp [List.any_append, List.any_cons]


theorem strMkData (n : String) : String.mk n.data = n := rfl

theorem keyStepVal_notObj (v : Json) (h : isObj v = false) (nm : String) :
    keyStepVal v nm = .null := by
  cases v
  case obj fs => cases h
  all_goals rfl

theorem keyStepVal_obj (fs : List (String × Json)) (nm : String) :
    keyStepVal (Json.obj fs) nm = (jLookup fs nm).getD .null := rfl

theorem idxStepVal_notObj (v : Json) (h : isObj v = false) (nm : String)
    (i : Int) : idxStepVal v nm i = none := by
  cases v
  case obj fs => cases h
  all_goals
    show arrIndexStep (Json.arr []) i = none
    rw [show arrIndexStep (Json.arr []) i = pyIndex [] i from rfl, pyIndex_nil]

theorem idxStepVal_obj (fs : List (String × Json)) (nm : String) (i : Int) :
    idxStepVal (Json.obj fs) nm i
      = arrIndexStep ((jLookup fs nm).getD (.arr [])) i := rfl

theorem arrIndexStep_notArr (v : Json) (h : isArr v = false) (i : Int) :
    arrIndexStep v i = some .null := by
  cases v
  case arr xs => cases h
  all_goals rfl

theorem seekArr_some_notArr (v : Json) (h : isArr v = false) (i : Int) :
    seekArr (some v) i = none := by
  cases v
  case arr xs => cases h
  all_goals rfl

theorem followSegs_key_notObj (v : Json) (h : isObj v = false) (n : String)
    (rest : List Seg) : followSegs v (.key n :: rest) = none := by
  cases v
  case obj fs => cases h
  all_goals rfl

theorem followSegs_idx_notObj (v : Json) (h : isObj v = false) (n : String)
    (i : Int) (rest : List Seg) : followSegs v (.idx n i :: rest) = none := by
  cases v
  case obj fs => cases h
  all_goals rfl

theorem followSegs_key_obj (fs : List (String × Json)) (n : String)
    (rest : List Seg) :
    followSegs (Json.obj fs) (.key n :: rest)
      = (jLookup fs n).bind fun w => followSegs w rest := rfl

theorem followSegs_idx_obj (fs : List (String × Json)) (n : String) (i : Int)
    (rest : List Seg) :
    followSegs (Json.obj fs) (.idx n i :: rest)
      = (seekArr (jLookup fs n) i).bind fun x => followSegs x rest := rfl

theorem extractWalk_null (segs : List Seg) (hwf : ∀ s ∈ segs, segWF s) :
    (extractWalk (segs.map fun s => (renderSeg s).data) Json.null).getD .null
      = .null := by
  induction segs with
  | nil => rfl
  | cons s rest ih =>
    have hwfr : ∀ x ∈ rest, segWF x :=
      fun x hx => hwf x (List.mem_cons_of_mem _ hx)
    cases s with
    | key n =>
      obtain ⟨h1, h2⟩ := hwf _ (List.mem_cons_self _ _)
      rw [List.map_cons, extractWalk,
        show renderSeg (Seg.key n) = n from rfl,
        if_neg (extractWalk_key_cond n h2),
        keyStepVal_notObj Json.null rfl]
      exact ih hwfr
    | idx n i =>
      obtain ⟨h1, h2, h3⟩ := hwf _ (List.mem_cons_self _ _)
      simp only [List.any_eq_true, decide_eq_true_eq] at h1 h3
      push_neg at h1 h3
      rw [List.map_cons, extractWalk, renderSeg_idx_data,
        if_pos (extractWalk_idx_cond n i),
        extractWalk_idx_split n i h1 h3,
        show parseIdxSeg [n.data, (toString i).data]
          = some (n.data, (toString i).data) from rfl]
      simp only [Option.some_bind, h2, idxStepVal_notObj Json.null rfl,
        Option.none_bind, Option.getD_none]

theorem extractWalk_render (segs : List Seg) (t : Json)
    (hwf : ∀ s ∈ segs, segWF s) :
    (extractWalk (segs.map fun s => (renderSeg s).data) t).getD .null
      = (followSegs t segs).getD .null := by
  induction segs generalizing t with
  | nil => rfl
  | cons s rest ih =>
    have hwfr : ∀ x ∈ rest, segWF x :=
      fun x hx => hwf x (List.mem_cons_of_mem _ hx)
    cases s with
    | key n =>
      obtain ⟨h1, h2⟩ := hwf _ (List.mem_cons_self _ _)
      rw [List.map_cons, extractWalk,
        show renderSeg (Seg.key n) = n from rfl,
        if_neg (extractWalk_key_cond n h2)]
      cases t
      case obj fs =>
        rw [show String.mk n.data = n from rfl, keyStepVal_obj,
          followSegs_key_obj]
        cases hl : jLookup fs n with
        | some v =>
          rw [Option.getD_some, Option.some_bind]
          exact ih v hwfr
        | none =>
          rw [Option.getD_none, Option.none_bind]
          exact extractWalk_null rest hwfr
      all_goals
        simp only [strMkData, keyStepVal_notObj, followSegs_key_notObj,
          isObj, Option.getD_none]
        exact extractWalk_null rest hwfr
    | idx n i =>
      obtain ⟨h1, h2, h3⟩ := hwf _ (List.mem_cons_self _ _)
      simp only [List.any_eq_true, decide_eq_true_eq] at h1 h3
      push_neg at h1 h3
      rw [List.map_cons, extractWalk, renderSeg_idx_data,
        if_pos (extractWalk_idx_cond n i),
        extractWalk_idx_split n i h1 h3,
        show parseIdxSeg [n.data, (toString i).data]
          = some (n.data, (toString i).data) from rfl]
      simp only [Option.some_bind, h2, strMkData]
      cases t
      case obj fs =>
        rw [idxStepVal_obj, followSegs_idx_obj]
        cases hl : jLookup fs n with
        | none =>
          rw [Option.getD_none,
            show arrIndexStep (Json.arr []) i = pyIndex [] i from rfl,
            pyIndex_nil, Option.none_bind,
            show seekArr none i = none from rfl, Option.none_bind]
        | some v =>
          rw [Option.getD_some]
          cases v
          case arr xs =>
            rw [show arrIndexStep (Json.arr xs) i = pyIndex xs i from rfl,
              show seekArr (some (Json.arr xs)) i = pyIndex xs i from rfl]
            cases hx : pyIndex xs i with
            | some x =>
              rw [Option.some_bind, Option.some_bind]
              exact ih x hwfr
            | none => rw [Option.none_bind, Option.none_bind]
          all_goals
            simp only [arrIndexStep_notArr, seekArr_some_notArr, isArr,
              Option.some_bind, Option.none_bind, Option.getD_none]
            exact extractWalk_null rest hwfr
      all_goals
        simp only [idxStepVal_notObj, followSegs_idx_notObj, isObj,
          Option.none_bind, Option.getD_none]

theorem sbpsGo_spec (q : ℚ) :
    sbpsGo 4 q 0 = (q / 1024 ^ specScaleIdx q, specScaleIdx q) := by
  have hp : (0 : ℚ) < 1024 := by norm_num
  have e1 : sbpsGo 4 q 0
      = if 1024 ≤ q ∧ (0 : Nat) < 4 then sbpsGo 3 (q / 1024) 1 else (q, 0) := rfl
  have e2 : ∀ x : ℚ, sbpsGo 3 x 1
      = if 1024 ≤ x ∧ (1 : Nat) < 4 then sbpsGo 2 (x / 1024) 2 else (x, 1) :=
    fun _ => rfl
  have e3 : ∀ x : ℚ, sbpsGo 2 x 2
      = if 1024 ≤ x ∧ (2 : Nat) < 4 then sbpsGo 1 (x / 1024) 3 else (x, 2) :=
    fun _ => rfl
  have e4 : ∀ x : ℚ, sbpsGo 1 x 3
      = if 1024 ≤ x ∧ (3 : Nat) < 4 then sbpsGo 0 (x / 1024) 4 else (x, 3) :=
    fun _ => rfl
  have e5 : ∀ x : ℚ, sbpsGo 0 x 4 = (x, 4) := fun _ => rfl
  have d1 : q / 1024 = q / 1024 ^ 1 := by rw [pow_one]
  have d2 : q / 1024 / 1024 = q / 1024 ^ 2 := by rw [div_div]; norm_num
  have d3 : q / 1024 ^ 2 / 1024 = q / 1024 ^ 3 := by rw [div_div]; ring_nf
  have d4 : q / 1024 ^ 3 / 1024 = q / 1024 ^ 4 := by rw [div_div]; ring_nf
  unfold specScaleIdx
  by_cases h1 : q < 1024
  · rw [e1, if_neg fun hc => absurd hc.1 (not_le.2 h1), if_pos h1]
    norm_num
  · have c1 : 1024 ≤ q := not_lt.1 h1
    rw [e1, if_pos ⟨c1, by norm_num⟩, e2]
    by_cases h2 : q < 1024 ^ 2
    · have hx : ¬ (1024 ≤ q / 1024 ∧ (1 : Nat) < 4) := by
        rintro ⟨hc, -⟩
        rw [le_div_iff₀ hp] at hc
        have : (1024 : ℚ) ^ 2 ≤ q := by nlinarith
        exact absurd this (not_le.2 h2)
      rw [if_neg hx, if_neg h1, if_pos h2, pow_one]
    · have c2 : 1024 ≤ q / 1024 := by
        rw [le_div_iff₀ hp]
        nlinarith [not_lt.1 h2]
      rw [if_pos ⟨c2, by norm_num⟩, e3, d2]
      by_cases h3 : q < 1024 ^ 3
      · have hx : ¬ (1024 ≤ q / 1024 ^ 2 ∧ (2 : Nat) < 4) := by
          rintro ⟨hc, -⟩
          rw [le_div_iff₀ (by positivity)] at hc
          have : (1024 : ℚ) ^ 3 ≤ q := by nlinarith
          exact absurd this (not_le.2 h3)
        rw [if_neg hx, if_neg h1, if_neg h2, if_pos h3]
      · have c3 : 1024 ≤ q / 1024 ^ 2 := by
          rw [le_div_iff₀ (by positivity)]
          nlinarith [not_lt.1 h3]
        rw [if_pos ⟨c3, by norm_num⟩, e4, d3]
        by_cases h4 : q < 1024 ^ 4
        · have hx : ¬ (1024 ≤ q / 1024 ^ 3 ∧ (3 : Nat) < 4) := by
            rintro ⟨hc, -⟩
            rw [le_div_iff₀ (by positivity)] at hc
            have : (1024 : ℚ) ^ 4 ≤ q := by nlinarith
            exact absurd this (not_le.2 h4)
          rw [if_neg hx, if_neg h1, if_neg h2, if_neg h3, if_pos h4]
        · have c4 : 1024 ≤ q / 1024 ^ 3 := by
            rw [le_div_iff₀ (by positivity)]
            nlinarith [not_lt.1 h4]
          rw [if_pos ⟨c4, by norm_num⟩, e5, d4, if_neg h1, if_neg h2,
            if_neg h3, if_neg h4]

/-- C1 (amended): `scale_bytes_per_second` renders a numeric byte rate as
`"<integer> <unit>/s"`, dividing by 1024 until the magnitude is below 1024
or the five units B/s..TB/s are exhausted and rounding half up; in
particular `scale_bytes_per_second(1536)` returns `"2 kB/s"` (1.5 kB/s
rounds half up to 2), `scale_bytes_per_second(0)` returns `"0 B/s"`, and
`scale_bytes_per_second(None)` returns `None`. -/
theorem scale_bytes_per_second_spec :
    (∀ q : ℚ, 0 ≤ q → scale_bytes_per_second (.num q)
        = some (toString (roundHalfUpInt (q / 1024 ^ specScaleIdx q)) ++ " "
            ++ sbpsUnits.getD (specScaleIdx q) "B/s"))
    ∧ scale_bytes_per_second (.num 1536) = some "2 kB/s"
    ∧ scale_bytes_per_second (.num 0) = some "0 B/s"
    ∧ scale_bytes_per_second .null = none := by
  have hgen : ∀ q : ℚ, scale_bytes_per_second (.num q)
      = some (toString (roundHalfUpInt (q / 1024 ^ specScaleIdx q)) ++ " "
          ++ sbpsUnits.getD (specScaleIdx q) "B/s") := by
    intro q
    rw [show scale_bytes_per_second (.num q)
        = some (toString (roundHalfUpInt (sbpsGo 4 q 0).1) ++ " "
            ++ sbpsUnits.getD (sbpsGo 4 q 0).2 "B/s") from rfl, sbpsGo_spec q]
  refine ⟨fun q _ => hgen q, ?_, ?_, rfl⟩
  · rw [hgen, show specScaleIdx 1536 = 1 by norm_num [specScaleIdx],
      show (1536 : ℚ) / 1024 ^ 1 = 3 / 2 by norm_num,
      show roundHalfUpInt (3 / 2) = 2 by
        unfold roundHalfUpInt
        rw [if_pos (by norm_num), show (3 / 2 + 1 / 2 : ℚ) = ((2 : ℤ) : ℚ) by
          norm_num, Int.floor_intCast]]
    decide
  · rw [hgen, show specScaleIdx 0 = 0 by norm_num [specScaleIdx],
      show (0 : ℚ) / 1024 ^ 0 = 0 by norm_num,
      show roundHalfUpInt 0 = 0 by
        unfold roundHalfUpInt
        rw [if_pos le_rfl]
        have h0 : ⌊(0 + 1 / 2 : ℚ)⌋ = 0 := by
          rw [Int.floor_eq_zero_iff]
          constructor <;> norm_num
        simpa using h0]
    decide

/-- C1 counterexample: on input 1536 the source rounds 1.5 half up and
returns `"2 kB/s"`, not the `"1 kB/s"` the claim asserts. -/
theorem scale_bytes_per_second_1536 :
    scale_bytes_per_second (.num 1536) ≠ some "1 kB/s"
    ∧ scale_bytes_per_second (.num 1536) = some "2 kB/s" := by
  have h2 := scale_bytes_per_second_spec.2.1
  exact ⟨by rw [h2]; decide, h2⟩

/-- C1 witness: the amended rendering law evaluated at 1536. -/
theorem scale_bytes_per_second_spec_witness :
    (0 : ℚ) ≤ 1536
    ∧ scale_bytes_per_second (.num 1536)
      = some (toString (roundHalfUpInt ((1536 : ℚ) / 1024 ^ specScaleIdx 1536))
          ++ " " ++ sbpsUnits.getD (specScaleIdx 1536) "B/s") :=
  ⟨by norm_num, scale_bytes_per_second_spec.1 1536 (by norm_num)⟩

/-- C2: for the repository's temperature descriptors (unit `"°C"`),
`format_sensor_value` does **not** round to the nearest integer: the
temperature branch compares the unit against the mis-encoded literal
`"Â°C"`, which never matches, so the raw value 45.6 falls through to the
numeric passthrough unchanged; `format_temperature` (the intended rule 5)
would return 46, and only a descriptor carrying the mojibake unit string
reaches it. -/
theorem format_sensor_value_temperature_bug :
    ∀ env : PyEnv,
      format_sensor_value env (.num (228 / 5)) cpuTempDesc = .num (228 / 5)
      ∧ format_temperature (.num (228 / 5)) = .num 46
      ∧ format_sensor_value env (.num (228 / 5)) cpuTempDescMojibake = .num 46
      ∧ (228 / 5 : ℚ) ≠ 46 := by
  intro env
  have hf : ⌊(228 / 5 : ℚ)⌋ = 45 := by
    rw [Int.floor_eq_iff]
    constructor <;> norm_num
  have hb : format_temperature (.num (228 / 5)) = .num 46 := by
    show Json.num (bankersRoundInt (228 / 5) : ℚ) = .num 46
    have : bankersRoundInt (228 / 5) = 46 := by
      show (if (228 / 5 : ℚ) - ⌊(228 / 5 : ℚ)⌋ < 1 / 2 then ⌊(228 / 5 : ℚ)⌋
        else if 1 / 2 < (228 / 5 : ℚ) - ⌊(228 / 5 : ℚ)⌋ then ⌊(228 / 5 : ℚ)⌋ + 1
        else if ⌊(228 / 5 : ℚ)⌋ % 2 = 0 then ⌊(228 / 5 : ℚ)⌋
        else ⌊(228 / 5 : ℚ)⌋ + 1) = 46
      rw [hf, if_neg (by push_cast; norm_num), if_pos (by push_cast; norm_num)]
      decide
    rw [this]
    norm_num
  refine ⟨rfl, hb, ?_, by norm_num⟩
  rw [show format_sensor_value env (.num (228 / 5)) cpuTempDescMojibake
      = format_temperature (.num (228 / 5)) from rfl]
  exact hb

/-- C3: when the first response carries code 1024, `_request` performs
exactly one re-login; on re-login success it re-issues the request exactly
once and returns whatever that second attempt yields unchanged (a second
1024 included, an exception as the caught empty mapping); on re-login
failure it returns the empty mapping without re-issuing; and no run of
`_request` ever issues more than two requests, so there is never a second
1024-triggered retry. -/
theorem requestRun_1024_spec :
    (∀ (hasToken : Bool) (login : Nat → Bool) (doReq : Nat → DoResult),
      (requestRun hasToken login doReq).2.2 ≤ 2)
    ∧ ∀ (hasToken : Bool) (login : Nat → Bool) (doReq : Nat → DoResult)
        (j : Json) (c : Option Json),
        (hasToken = true ∨ login 0 = true) →
        doReq 0 = .ok j → getCode j = .ok c → isCode1024 c = true →
        let l0 : Nat := if hasToken then 0 else 1
        (∀ j2, login l0 = true → doReq 1 = .ok j2 →
          requestRun hasToken login doReq = (j2, l0 + 1, 2))
        ∧ (login l0 = true → doReq 1 = .exn →
          requestRun hasToken login doReq = (.obj [], l0 + 1, 2))
        ∧ (login l0 = false →
          requestRun hasToken login doReq = (.obj [], l0 + 1, 1)) := by
  constructor
  · intro hasToken login doReq
    unfold requestRun reqOnFirst reqRetry
    repeat' split
    all_goals simp
  · intro hasToken login doReq j c hTok h0 hc h1024 l0
    have hstart : requestRun hasToken login doReq
        = reqOnFirst l0 login doReq (doReq 0) := by
      unfold requestRun
      rw [if_neg (by
        cases hTok with
        | inl h => rw [h]; exact Bool.false_ne_true
        | inr h => rw [h]; simp)]
    have hfirst : reqOnFirst l0 login doReq (doReq 0)
        = reqRetry l0 login doReq j c := by
      rw [h0]
      show (match getCode j with
        | .error _ => (Json.obj [], l0, 1)
        | .ok c => reqRetry l0 login doReq j c) = _
      rw [hc]
    refine ⟨?_, ?_, ?_⟩
    · intro j2 hlog hd1
      rw [hstart, hfirst]
      unfold reqRetry
      rw [if_pos h1024, if_pos hlog, hd1]
    · intro hlog hd1
      rw [hstart, hfirst]
      unfold reqRetry
      rw [if_pos h1024, if_pos hlog, hd1]
    · intro hlog
      rw [hstart, hfirst]
      unfold reqRetry
      rw [if_pos h1024, if_neg (by rw [hlog]; exact Bool.false_ne_true)]

/-- C3 witness: a 1024 first response followed by a 200 second response
after one successful re-login yields the second response with exactly one
re-login and two issued requests. -/
theorem requestRun_1024_spec_witness :
    ((fun k => if k = 0 then DoResult.ok (.obj [("code", .num 1024)])
        else DoResult.ok (.obj [("code", .num 200)])) 0
      = DoResult.ok (.obj [("code", .num 1024)]))
    ∧ getCode (.obj [("code", .num 1024)]) = .ok (some (.num 1024))
    ∧ isCode1024 (some (.num 1024)) = true
    ∧ requestRun true (fun _ => true)
        (fun k => if k = 0 then DoResult.ok (.obj [("code", .num 1024)])
          else DoResult.ok (.obj [("code", .num 200)]))
        = (.obj [("code", .num 200)], 1, 2) := by
  refine ⟨rfl, rfl, by decide, ?_⟩
  exact ((requestRun_1024_spec.2 true (fun _ => true)
      (fun k => if k = 0 then DoResult.ok (.obj [("code", .num 1024)])
        else DoResult.ok (.obj [("code", .num 200)]))
      (.obj [("code", .num 1024)]) (some (.num 1024))
      (Or.inl rfl) rfl rfl (by decide)).1
    (.obj [("code", .num 200)]) rfl rfl)

/-- C4: `extract_value_from_path` is fail-soft — for every JSON-like tree
and every path of the dotted/indexed grammar, it returns exactly what the
reference walk `followSegs` finds, with the walk's failures (missing
mapping key, key lookup on a non-mapping, out-of-range or non-sequence
index, any type mismatch) collapsing to `null`; being a total function it
never raises. -/
theorem extract_value_from_path_spec (t : Json) (segs : List Seg)
    (hne : segs ≠ []) (hwf : ∀ s ∈ segs, segWF s) :
    extract_value_from_path t (renderPath segs)
      = (followSegs t segs).getD .null := by
  show (extractWalk
      (pySplitCh '.' (joinDotsCh (segs.map fun s => (renderSeg s).data))) t).getD
      .null = _
  rw [pySplitCh_join _ (by simpa using hne) (by
    intro p hp
    obtain ⟨s, hs, rfl⟩ := List.mem_map.1 hp
    exact renderSeg_no_dot s (hwf s hs))]
  exact extractWalk_render segs t hwf

/-- C4 witness: a two-segment path with an index evaluated on a concrete
tree, both on a fully matching tree and on one where the key is absent. -/
theorem extract_value_from_path_spec_witness :
    (([Seg.key "data", Seg.idx "result" 1] : List Seg) ≠ [])
    ∧ (∀ s ∈ ([Seg.key "data", Seg.idx "result" 1] : List Seg), segWF s)
    ∧ extract_value_from_path
        (.obj [("data", .obj [("result", .arr [.num 1, .num 7])])])
        (renderPath [Seg.key "data", Seg.idx "result" 1])
      = (followSegs
          (.obj [("data", .obj [("result", .arr [.num 1, .num 7])])])
          [Seg.key "data", Seg.idx "result" 1]).getD .null
    ∧ extract_value_from_path (.obj [("other", .num 3)])
        (renderPath [Seg.key "data", Seg.idx "result" 1])
      = (followSegs (.obj [("other", .num 3)])
          [Seg.key "data", Seg.idx "result" 1]).getD .null :=
  ⟨by simp, by decide,
    extract_value_from_path_spec _ _ (by simp) (by decide),
    extract_value_from_path_spec _ _ (by simp) (by decide)⟩

theorem entityValueE_ram_total (data : List (String × Json)) (r : Json) :
    entityValueE data r "calculated:ram_total_size"
      = match pySum (ramSizeValues data) with
        | some q => Except.ok (Json.num q)
        | none => Except.error () := rfl

theorem entityValue_ram_total (data : List (String × Json)) (r : Json) :
    entityValue data r "calculated:ram_total_size"
      = match pySum (ramSizeValues data) with
        | some q => Json.num q
        | none => Json.null := by
  unfold entityValue
  rw [entityValueE_ram_total]
  cases pySum (ramSizeValues data) <;> rfl

theorem pySum_null_mem (l : List Json) (h : Json.null ∈ l) :
    pySum l = none := by
  induction l with
  | nil => cases h
  | cons v rest ih =>
    cases List.mem_cons.1 h with
    | inl hv => rw [← hv]; rfl
    | inr hr =>
      cases v with
      | num q => rw [show pySum (Json.num q :: rest)
          = (pySum rest).map fun t => q + t from rfl, ih hr]; rfl
      | bool b => rw [show pySum (Json.bool b :: rest)
          = (pySum rest).map fun t => (if b then (1 : ℚ) else 0) + t from rfl,
          ih hr]; rfl
      | null => rfl
      | str a => rfl
      | arr xs => rfl
      | obj fs => rfl

/-- C9 (amended): a descriptor whose extraction path is
`calculated:ram_total_size` gets the sum of the values already present in
the cumulative output map under keys starting with `RAM` and ending with
`_size`, ignoring its own endpoint response entirely; and an extraction
path starting with `calculated:` that extends neither
`calculated:ram_total_size` nor `calculated:scale_bytes_per_second:` as a
prefix yields null (matching is prefix-based, not name-based). -/
theorem entityValue_calculated_spec :
    ∀ (data : List (String × Json)) (r1 r2 : Json),
      (entityValue data r1 "calculated:ram_total_size"
          = entityValue data r2 "calculated:ram_total_size"
        ∧ ∀ q, pySum (ramSizeValues data) = some q →
            entityValue data r1 "calculated:ram_total_size" = .num q)
      ∧ (∀ p : String,
          pyStartsWith p "calculated:" = true →
          pyStartsWith p "calculated:ram_total_size" = false →
          pyStartsWith p "calculated:scale_bytes_per_second:" = false →
          entityValue data r1 p = .null) := by
  intro data r1 r2
  constructor
  · constructor
    · rw [entityValue_ram_total data r1, entityValue_ram_total data r2]
    · intro q hq
      rw [entityValue_ram_total data r1, hq]
  · intro p h1 h2 h3
    simp only [entityValue, entityValueE, h1, h2, h3]
    rfl

/-- C9 counterexample: the path `calculated:ram_total_sizes` has an unknown
name (`ram_total_sizes` is neither of the two markers), yet the engine
assigns it the RAM-size sum 0 — not null — because the source matches with
`startswith`. -/
theorem entityValue_calculated_counterexample :
    pyStartsWith "calculated:ram_total_sizes" "calculated:" = true
    ∧ "ram_total_sizes" ≠ "ram_total_size"
    ∧ "ram_total_sizes" ≠ "scale_bytes_per_second"
    ∧ jLookup (get_entity_data_from_api (fun _ => some (.obj []))
        [("/a", [weirdEnt])]).1 "ram_total" = some (.num 0)
    ∧ Json.num 0 ≠ Json.null :=
  ⟨by decide, by decide, by decide, rfl, fun h => Json.noConfusion h⟩

/-- C9 witness: the aggregate marker on a map with one RAM-size value and
the null outcome of an unknown `calculated:` prefix. -/
theorem entityValue_calculated_spec_witness :
    (ramTotalEnt.path = some "calculated:ram_total_size"
      ∧ entityValue [("RAM_size", .num 5)] (.obj [])
          "calculated:ram_total_size"
        = entityValue [("RAM_size", .num 5)] (.str "other response")
            "calculated:ram_total_size")
    ∧ (weirdEnt.path = some "calculated:ram_total_sizes"
      ∧ pyStartsWith "calculated:ram_total_siz" "calculated:" = true
      ∧ entityValue [] (.obj []) "calculated:ram_total_siz" = .null) :=
  ⟨⟨rfl, (entityValue_calculated_spec [("RAM_size", .num 5)] (.obj [])
      (.str "other response")).1.1⟩,
    ⟨rfl, by decide,
      (entityValue_calculated_spec [] (.obj []) (.obj [])).2
        "calculated:ram_total_siz" (by decide) (by decide) (by decide)⟩⟩

/-- C10: if the cumulative output map holds at least one key starting with
`RAM` and ending with `_size` whose value is null, the
`calculated:ram_total_size` descriptor is assigned null (the sum raises
`TypeError`, caught per-entity) rather than a partial sum; if the map holds
no such key at all, it is assigned 0, not null. -/
theorem entityValue_ram_total_null_zero :
    ∀ (data : List (String × Json)) (r : Json),
      ((∃ kv, kv ∈ data
          ∧ (pyStartsWith kv.1 "RAM" && pyEndsWith kv.1 "_size") = true
          ∧ kv.2 = Json.null) →
        entityValue data r "calculated:ram_total_size" = .null)
      ∧ ((∀ kv ∈ data,
          (pyStartsWith kv.1 "RAM" && pyEndsWith kv.1 "_size") = false) →
        entityValue data r "calculated:ram_total_size" = .num 0) := by
  intro data r
  constructor
  · rintro ⟨kv, hmem, hpred, hnull⟩
    have hv : Json.null ∈ ramSizeValues data := by
      unfold ramSizeValues
      rw [← hnull]
      exact List.mem_map_of_mem Prod.snd (List.mem_filter.2 ⟨hmem, hpred⟩)
    rw [entityValue_ram_total data r, pySum_null_mem _ hv]
  · intro hnone
    have hf : data.filter
        (fun kv => pyStartsWith kv.1 "RAM" && pyEndsWith kv.1 "_size") = [] := by
      rw [List.filter_eq_nil]
      intro kv hkv
      rw [hnone kv hkv]
      exact Bool.false_ne_true
    rw [entityValue_ram_total data r]
    unfold ramSizeValues
    rw [hf]
    rfl

/-- C10 witness: a failed RAM-size extraction (null value) poisons the
total to null, and an empty map yields 0. -/
theorem entityValue_ram_total_null_zero_witness :
    (ramTotalEnt.path = some "calculated:ram_total_size")
    ∧ entityValue [("RAM1_size", Json.null), ("RAM2_size", .num 4)] (.obj [])
        "calculated:ram_total_size" = .null
    ∧ entityValue [("other", .num 3)] (.obj [])
        "calculated:ram_total_size" = .num 0 :=
  ⟨rfl,
    (entityValue_ram_total_null_zero
        [("RAM1_size", Json.null), ("RAM2_size", .num 4)] (.obj [])).1
      ⟨("RAM1_size", Json.null), List.mem_cons_self _ _, by decide, rfl⟩,
    (entityValue_ram_total_null_zero [("other", .num 3)] (.obj [])).2
      (by
        intro kv hkv
        rcases List.mem_cons.1 hkv with rfl | h
        · decide
        · cases h)⟩

/-- C7: `count_dynamic_entities` never propagates an exception — a probe
that raises resolves to the empty counts mapping; the first result, empty
or not, is written to the cache, and every call made with a populated cache
returns the cached mapping unchanged without issuing any request; in
particular the call made right after the first one returns the first
result and issues no requests. -/
theorem count_dynamic_entities_spec :
    ∀ get : String → Json,
      (∀ reqs, countProbe get = (.error (), reqs) →
        (count_dynamic_entities get none).1 = [])
      ∧ (count_dynamic_entities get none).2.1
          = some (count_dynamic_entities get none).1
      ∧ (∀ cached, count_dynamic_entities get (some cached)
          = (cached, some cached, []))
      ∧ (count_dynamic_entities get
            ((count_dynamic_entities get none).2.1)).1
          = (count_dynamic_entities get none).1
      ∧ (count_dynamic_entities get
            ((count_dynamic_entities get none).2.1)).2.2 = [] := by
  intro get
  rcases hcp : countProbe get with ⟨e | cs, reqs⟩
  · have hnone : count_dynamic_entities get none = ([], some [], reqs) := by
      show (match countProbe get with
        | (.ok cs, rs) => (cs, some cs, rs)
        | (.error _, rs) => ([], some [], rs)) = _
      rw [hcp]
    exact ⟨fun rs _ => by rw [hnone], by rw [hnone], fun cached => rfl,
      by rw [hnone]; rfl, by rw [hnone]; rfl⟩
  · have hnone : count_dynamic_entities get none = (cs, some cs, reqs) := by
      show (match countProbe get with
        | (.ok cs, rs) => (cs, some cs, rs)
        | (.error _, rs) => ([], some [], rs)) = _
      rw [hcp]
    refine ⟨fun rs h => ?_, by rw [hnone], fun cached => rfl,
      by rw [hnone]; rfl, by rw [hnone]; rfl⟩
    injection h with h1 h2
    exact Except.noConfusion h1

/-- C8: when the stat endpoint's overview reports `cpu_fan` and
`device_fan` as single (nonempty) objects rather than arrays, the
capability probe normalizes each into a one-element collection and records
`has_cpu_fan = true`, `num_device_fans = 1` and `has_device_fan = true`
instead of failing or counting 0. -/
theorem count_dynamic_entities_single_fan :
    ∀ (f1 f2 : String × Json) (r1 r2 : List (String × Json)),
      jLookup (count_dynamic_entities
          (fanOracle (f1 :: r1) (f2 :: r2)) none).1 "has_cpu_fan"
        = some (.bool true)
      ∧ jLookup (count_dynamic_entities
          (fanOracle (f1 :: r1) (f2 :: r2)) none).1 "num_device_fans"
        = some (.num 1)
      ∧ jLookup (count_dynamic_entities
          (fanOracle (f1 :: r1) (f2 :: r2)) none).1 "has_device_fan"
        = some (.bool true) :=
  fun f1 f2 r1 r2 => ⟨rfl, rfl, rfl⟩

/-- C7 witness: a malformed sysinfo response (a truthy non-mapping under
`data`) raises inside the probe; the call resolves to the empty mapping,
caches it, and the follow-up call returns it without requests. -/
theorem count_dynamic_entities_spec_witness :
    countProbe (fun _ => Json.obj [("data", .num 1)])
      = (.error (), [sysinfoEndpoint])
    ∧ (count_dynamic_entities (fun _ => Json.obj [("data", .num 1)]) none).1
      = []
    ∧ count_dynamic_entities (fun _ => Json.obj [("data", .num 1)]) (some [])
      = ([], some [], []) :=
  ⟨rfl,
    (count_dynamic_entities_spec (fun _ => Json.obj [("data", .num 1)])).1
      [sysinfoEndpoint] rfl,
    (count_dynamic_entities_spec (fun _ => Json.obj [("data", .num 1)])).2.2.1
      []⟩

theorem strAppendEmpty (s : String) : s ++ "" = s := by
  cases s with
  | mk d =>
    show String.mk (d ++ []) = String.mk d
    rw [List.append_nil]

theorem strAppendLeftInj (a : String) :
    Function.Injective fun s => a ++ s := by
  intro s t h
  have h2 : a.data ++ s.data = a.data ++ t.data := congrArg String.data h
  cases s with
  | mk sd =>
    cases t with
    | mk td => exact congrArg String.mk (List.append_cancel_left h2)

theorem toDigitsCore_acc (fuel : Nat) :
    ∀ (n : Nat) (acc : List Char),
      Nat.toDigitsCore 10 fuel n acc = Nat.toDigitsCore 10 fuel n [] ++ acc := by
  induction fuel with
  | zero => intro n acc; rfl
  | succ f ih =>
    intro n acc
    simp only [Nat.toDigitsCore]
    by_cases h : n / 10 = 0
    · rw [if_pos h, if_pos h]
      rfl
    · rw [if_neg h, if_neg h, ih (n / 10) [Nat.digitChar (n % 10)],
        ih (n / 10) (Nat.digitChar (n % 10) :: acc), List.append_assoc]
      rfl

theorem toDigitsCore_fuel :
    ∀ (f1 f2 n : Nat), n < f1 → n < f2 →
      Nat.toDigitsCore 10 f1 n [] = Nat.toDigitsCore 10 f2 n [] := by
  intro f1
  induction f1 with
  | zero => intro f2 n h1 h2; omega
  | succ f ih =>
    intro f2 n h1 h2
    cases f2 with
    | zero => omega
    | succ g =>
      simp only [Nat.toDigitsCore]
      by_cases h : n / 10 = 0
      · rw [if_pos h, if_pos h]
      · rw [if_neg h, if_neg h,
          toDigitsCore_acc f (n / 10) [Nat.digitChar (n % 10)],
          toDigitsCore_acc g (n / 10) [Nat.digitChar (n % 10)]]
        have hn : 0 < n := by
          rcases Nat.eq_zero_or_pos n with h0 | h0
          · subst h0; simp at h
          · exact h0
        have hlt : n / 10 < n := Nat.div_lt_self hn (by omega)
        rw [ih g (n / 10) (by omega) (by omega)]

theorem reprData_lt (n : Nat) (h : n < 10) :
    (Nat.repr n).data = [Nat.digitChar n] := by
  show Nat.toDigitsCore 10 (n + 1) n [] = [Nat.digitChar n]
  simp only [Nat.toDigitsCore]
  rw [Nat.div_eq_of_lt h, if_pos rfl, Nat.mod_eq_of_lt h]

theorem reprData_ge (n : Nat) (h : 10 ≤ n) :
    (Nat.repr n).data
      = (Nat.repr (n / 10)).data ++ [Nat.digitChar (n % 10)] := by
  have hd : n / 10 ≠ 0 := by
    have : 1 ≤ n / 10 := (Nat.one_le_div_iff (by omega)).2 h
    omega
  show Nat.toDigitsCore 10 (n + 1) n []
      = Nat.toDigitsCore 10 (n / 10 + 1) (n / 10) []
        ++ [Nat.digitChar (n % 10)]
  have h1 : Nat.toDigitsCore 10 (n + 1) n []
      = Nat.toDigitsCore 10 n (n / 10) [Nat.digitChar (n % 10)] := by
    simp only [Nat.toDigitsCore]
    rw [if_neg hd]
  rw [h1, toDigitsCore_acc n (n / 10) [Nat.digitChar (n % 10)]]
  congr 1
  exact toDigitsCore_fuel n (n / 10 + 1) (n / 10)
    (Nat.div_lt_self (by omega) (by omega)) (Nat.lt_succ_self _)

theorem decFoldl_aux (cs : List Char) :
    ∀ a : Nat, cs.foldl (fun a c => 10 * a + (c.toNat - 48)) a
      = a * 10 ^ cs.length
        + cs.foldl (fun a c => 10 * a + (c.toNat - 48)) 0 := by
  induction cs with
  | nil => intro a; simp
  | cons c cs ih =>
    intro a
    rw [List.foldl_cons, List.foldl_cons, ih (10 * a + (c.toNat - 48)),
      ih (10 * 0 + (c.toNat - 48))]
    simp only [List.length_cons, pow_succ, Nat.zero_mul, Nat.zero_add]
    ring

theorem decValCh_append (a b : List Char) :
    decValCh (a ++ b) = decValCh a * 10 ^ b.length + decValCh b := by
  unfold decValCh
  rw [List.foldl_append]
  exact decFoldl_aux b _

theorem decValCh_digitChar (d : Nat) (h : d < 10) :
    decValCh [Nat.digitChar d] = d := by
  have h9 : ∀ m : Nat, m < 10 → (Nat.digitChar m).toNat - 48 = m := by decide
  show 10 * 0 + ((Nat.digitChar d).toNat - 48) = d
  rw [h9 d h]
  omega

theorem decValCh_repr (n : Nat) : decValCh (Nat.repr n).data = n := by
  induction n using Nat.strong_induction_on with
  | _ n ih =>
    by_cases h : n < 10
    · rw [reprData_lt n h, decValCh_digitChar n h]
    · have h10 : 10 ≤ n := by omega
      rw [reprData_ge n h10, decValCh_append,
        ih (n / 10) (Nat.div_lt_self (by omega) (by omega)),
        decValCh_digitChar (n % 10) (Nat.mod_lt n (by omega))]
      simp only [List.length_singleton, pow_one]
      omega

theorem reprConsecNe (n : Nat) (s t : List Char) :
    (Nat.repr n).data ++ s ≠ (Nat.repr (n + 1)).data ++ t := by
  intro h
  rcases Nat.lt_trichotomy (Nat.repr n).data.length
      (Nat.repr (n + 1)).data.length with hl | hl | hl
  · obtain ⟨u, hu⟩ := List.prefix_of_prefix_length_le
      ⟨s, rfl⟩ ⟨t, h.symm⟩ (Nat.le_of_lt hl)
    have hulen : 1 ≤ u.length := by
      have := congrArg List.length hu
      simp only [List.length_append] at this
      omega
    have hval : n + 1 = n * 10 ^ u.length + decValCh u := by
      calc n + 1 = decValCh (Nat.repr (n + 1)).data :=
            (decValCh_repr (n + 1)).symm
        _ = decValCh ((Nat.repr n).data ++ u) := by rw [hu]
        _ = decValCh (Nat.repr n).data * 10 ^ u.length + decValCh u :=
            decValCh_append _ u
        _ = n * 10 ^ u.length + decValCh u := by rw [decValCh_repr]
    have hpow : 10 ≤ 10 ^ u.length := by
      calc (10 : Nat) = 10 ^ 1 := (pow_one 10).symm
        _ ≤ 10 ^ u.length := Nat.pow_le_pow_right (by omega) hulen
    have hm : n * 10 ≤ n * 10 ^ u.length := Nat.mul_le_mul_left n hpow
    have hn0 : n = 0 := by omega
    subst hn0
    rw [show (Nat.repr 0).data = ['0'] from rfl,
      show (Nat.repr 1).data = ['1'] from rfl, List.singleton_append] at hu
    injection hu with h1 h2
    exact absurd h1 (by decide)
  · have heq : (Nat.repr n).data = (Nat.repr (n + 1)).data :=
      (List.append_inj h hl).1
    have h1 := decValCh_repr n
    rw [heq, decValCh_repr (n + 1)] at h1
    omega
  · obtain ⟨u, hu⟩ := List.prefix_of_prefix_length_le
      ⟨t, h.symm⟩ ⟨s, rfl⟩ (Nat.le_of_lt hl)
    have hulen : 1 ≤ u.length := by
      have := congrArg List.length hu
      simp only [List.length_append] at this
      omega
    have hval : n = (n + 1) * 10 ^ u.length + decValCh u := by
      calc n = decValCh (Nat.repr n).data := (decValCh_repr n).symm
        _ = decValCh ((Nat.repr (n + 1)).data ++ u) := by rw [hu]
        _ = decValCh (Nat.repr (n + 1)).data * 10 ^ u.length + decValCh u :=
            decValCh_append _ u
        _ = (n + 1) * 10 ^ u.length + decValCh u := by rw [decValCh_repr]
    have hpow : 10 ≤ 10 ^ u.length := by
      calc (10 : Nat) = 10 ^ 1 := (pow_one 10).symm
        _ ≤ 10 ^ u.length := Nat.pow_le_pow_right (by omega) hulen
    have hm : (n + 1) * 10 ≤ (n + 1) * 10 ^ u.length :=
      Nat.mul_le_mul_left (n + 1) hpow
    omega

theorem strAppendReprNe (base : String) (k : Nat) (s t : String) :
    base ++ toString k ++ s ≠ base ++ toString (k + 1) ++ t := by
  intro h
  have h1 : base.data ++ ((Nat.repr k).data ++ s.data)
      = base.data ++ ((Nat.repr (k + 1)).data ++ t.data) := by
    have h0 := congrArg String.data h
    simp only [strDataAppend, List.append_assoc] at h0
    exact h0
  exact reprConsecNe k s.data t.data (List.append_cancel_left h1)

theorem splitBrace_append (n r : List Char) (h : braceFreeCh n = true) :
    splitBrace (n ++ '\x7d' :: r) = some (n, r) := by
  induction n with
  | nil => simp [splitBrace]
  | cons c cs ih =>
    simp only [braceFreeCh, List.all_cons, Bool.and_eq_true,
      decide_eq_true_eq] at h
    obtain ⟨⟨h1, h2⟩, h3⟩ := h
    rw [List.cons_append, splitBrace, if_neg h2,
      ih (by simpa [braceFreeCh] using h3)]

theorem pyFormatAux_bf (ps : List (String × String)) (cs : List Char)
    (h : braceFreeCh cs = true) :
    ∀ f, cs.length < f → pyFormatAux ps f cs = some cs := by
  induction cs with
  | nil =>
    intro f hf
    cases f with
    | zero => omega
    | succ f => rfl
  | cons c cs ih =>
    intro f hf
    simp only [braceFreeCh, List.all_cons, Bool.and_eq_true,
      decide_eq_true_eq] at h
    obtain ⟨⟨h1, h2⟩, h3⟩ := h
    cases f with
    | zero => omega
    | succ f =>
      rw [pyFormatAux, if_neg h1, if_neg h2,
        ih (by simpa [braceFreeCh] using h3) f (by
          simp only [List.length_cons] at hf
          omega)]
      rfl

theorem pyFormat_key (ps : List (String × String)) (pk suf : String)
    (hsuf : braceFreeCh suf.data = true)
    (hps : lookupParam ps "prefix_key".data = some pk) :
    pyFormat ps ("{prefix_key}" ++ suf) = some (pk ++ suf) := by
  unfold pyFormat
  rw [show ("{prefix_key}" ++ suf).data
    = '\x7b' :: ("prefix_key".data ++ '\x7d' :: suf.data) from rfl]
  rw [pyFormatAux, if_pos rfl, splitBrace_append _ _ (by decide),
    Option.some_bind]
  show Option.map String.mk
      ((lookupParam ps "prefix_key".data).bind fun v =>
        Option.map (fun t => v.data ++ t)
          (pyFormatAux ps
            ('\x7b' :: ("prefix_key".data ++ '\x7d' :: suf.data)).length
            suf.data))
    = some (pk ++ suf)
  rw [hps, Option.some_bind,
    pyFormatAux_bf ps suf.data hsuf _ (by
      simp only [List.length_cons, List.length_append]
      omega)]
  rfl

theorem pyFormat_bf (ps : List (String × String)) (s : String)
    (h : braceFreeCh s.data = true) : pyFormat ps s = some s := by
  unfold pyFormat
  rw [pyFormatAux_bf ps s.data h _ (Nat.lt_succ_self _)]
  rfl

theorem keysOfEntities_append (a b : List UgreenEntity) :
    keysOfEntities (a ++ b) = keysOfEntities a ++ keysOfEntities b := by
  simp [keysOfEntities]

theorem applyTemplate_key (ps : List (String × String)) (pk suf : String)
    (t : UgreenEntity) (ht : tmplKeyed suf t)
    (hps : lookupParam ps "prefix_key".data = some pk) :
    ∃ e, applyTemplate ps t = some e ∧ e.description.key = pk ++ suf := by
  obtain ⟨hk, hsuf, hn, he, hpsome, hpbf, hc⟩ := ht
  cases hpath : t.path with
  | none => rw [hpath] at hpsome; simp at hpsome
  | some p =>
    rw [hpath] at hpbf
    have hkey : pyFormat ps t.description.key = some (pk ++ suf) := by
      rw [hk]; exact pyFormat_key ps pk suf hsuf hps
    have hname : fmtOptStr ps t.description.name = some t.description.name := by
      cases hnm : t.description.name with
      | none => rfl
      | some n =>
        rw [hnm] at hn
        simp [fmtOptStr, pyFormat_bf ps n hn]
    have hep : pyFormat ps t.endpoint = some t.endpoint :=
      pyFormat_bf ps t.endpoint he
    have hfp : fmtPath ps t.path = some p := by
      rw [hpath]
      simp [fmtPath, pyFormat_bf ps p hpbf]
    have hcat : fmtOptStr ps t.nas_part_category = some t.nas_part_category := by
      cases hcc : t.nas_part_category with
      | none => rfl
      | some c =>
        rw [hcc] at hc
        simp [fmtOptStr, pyFormat_bf ps c hc]
    refine ⟨{ description :=
                { key := pk ++ suf, name := t.description.name,
                  icon := t.description.icon,
                  unit_of_measurement := t.description.unit_of_measurement },
              endpoint := t.endpoint, path := some p,
              request_method := t.request_method,
              decimal_places := t.decimal_places,
              nas_part_category := t.nas_part_category }, ?_, rfl⟩
    simp [applyTemplate, hkey, hname, hep, hfp, hcat]

theorem apply_templates_keys (ps : List (String × String)) (pk : String)
    (hps : lookupParam ps "prefix_key".data = some pk) :
    ∀ (sufs : List String) (tmpls : List UgreenEntity),
      List.Forall₂ tmplKeyed sufs tmpls →
      ∃ es, apply_templates tmpls ps = some es ∧
        keysOfEntities es = sufs.map fun s => pk ++ s := by
  intro sufs tmpls hft
  induction hft with
  | nil => exact ⟨[], rfl, rfl⟩
  | cons ht hrest ih =>
    obtain ⟨e, he, hek⟩ := applyTemplate_key ps pk _ _ ht hps
    obtain ⟨es, hes, hkeys⟩ := ih
    refine ⟨e :: es, ?_, ?_⟩
    · simp only [apply_templates]
      rw [he, Option.some_bind, hes]
      rfl
    · simp [keysOfEntities, hek] at hkeys ⊢
      exact hkeys

theorem makeEntLoop_cons (tmpls : List UgreenEntity)
    (ep base pn cat : String) (istart : Nat) (single : Bool) (rem i : Nat)
    (es rest : List UgreenEntity)
    (h1 : apply_templates tmpls
        (makeFmtParams i (i + istart)
          (base ++ (if single then "" else toString (i + istart)))
          (pn ++ (if single then "" else " " ++ toString (i + istart)))
          ep cat) = some es)
    (h2 : makeEntLoop tmpls ep base pn cat istart single rem (i + 1)
        = some rest) :
    makeEntLoop tmpls ep base pn cat istart single (rem + 1) i
      = some (es ++ rest) := by
  simp only [makeEntLoop]
  rw [h1, Option.some_bind, h2]
  rfl

/-- C5 counterexample to the claim as stated: pairwise-distinct template
keys alone do not prevent key collisions.  A single template whose key
`foo` ignores the `\x7bprefix_key\x7d` placeholder is trivially
pairwise-distinct, yet a count-2 build emits the key `foo` twice. -/
theorem make_entities_shared_key_counterexample :
    (make_entities none [fooTmpl] "/sys" "disk" "Disk" "dyn" none (some 2) 1
        true).map keysOfEntities = some ["foo", "foo"] ∧
    ¬ (["foo", "foo"] : List String).Nodup :=
  ⟨rfl, by decide⟩

/-- C5 (amended): for templates whose keys are `\x7bprefix_key\x7d`
followed by pairwise-distinct brace-free suffixes (the convention every
entity table follows), `make_entities` with resolved count 0 returns `[]`;
with count 1 and `single_compact` the keys are the bare prefix base plus
the suffixes, with no numeric suffix, pairwise distinct; with count 2 the
keys carry the numeric suffixes `index_start` and `index_start + 1` (so
`1` and `2` at the default start) and are pairwise distinct, for every
`index_start`. -/
theorem make_entities_key_spec
    (sufs : List String) (tmpls : List UgreenEntity)
    (ep base pn cat : String) (sc : Bool)
    (hft : List.Forall₂ tmplKeyed sufs tmpls)
    (hnd : sufs.Nodup) :
    (∀ istart sc', make_entities none tmpls ep base pn cat none (some 0)
        istart sc' = some []) ∧
    (∀ istart, ∃ es,
        make_entities none tmpls ep base pn cat none (some 1) istart true
          = some es ∧
        keysOfEntities es = sufs.map (fun s => base ++ s) ∧
        (keysOfEntities es).Nodup) ∧
    (∀ istart, ∃ es,
        make_entities none tmpls ep base pn cat none (some 2) istart sc
          = some es ∧
        keysOfEntities es
          = sufs.map (fun s => base ++ toString istart ++ s)
            ++ sufs.map (fun s => base ++ toString (istart + 1) ++ s) ∧
        (keysOfEntities es).Nodup) := by
  refine ⟨fun istart sc' => rfl, fun istart => ?_, fun istart => ?_⟩
  · obtain ⟨es, hes, hk⟩ := apply_templates_keys
      (makeFmtParams 0 (0 + istart) (base ++ "") (pn ++ "") ep cat)
      (base ++ "") rfl sufs tmpls hft
    have hstep : makeEntLoop tmpls ep base pn cat istart true 1 0
        = some (es ++ []) :=
      makeEntLoop_cons tmpls ep base pn cat istart true 0 0 es [] hes rfl
    refine ⟨es ++ [], hstep, ?_, ?_⟩
    · rw [List.append_nil, hk]
      simp only [strAppendEmpty]
    · rw [List.append_nil, hk]
      simp only [strAppendEmpty]
      exact hnd.map (strAppendLeftInj base)
  · obtain ⟨es0, hes0, hk0⟩ := apply_templates_keys
      (makeFmtParams 0 (0 + istart) (base ++ toString (0 + istart))
        (pn ++ (" " ++ toString (0 + istart))) ep cat)
      (base ++ toString (0 + istart)) rfl sufs tmpls hft
    obtain ⟨es1, hes1, hk1⟩ := apply_templates_keys
      (makeFmtParams 1 (1 + istart) (base ++ toString (1 + istart))
        (pn ++ (" " ++ toString (1 + istart))) ep cat)
      (base ++ toString (1 + istart)) rfl sufs tmpls hft
    have hstep1 : makeEntLoop tmpls ep base pn cat istart false 1 1
        = some (es1 ++ []) :=
      makeEntLoop_cons tmpls ep base pn cat istart false 0 1 es1 [] hes1 rfl
    have hstep0 : makeEntLoop tmpls ep base pn cat istart false 2 0
        = some (es0 ++ (es1 ++ [])) :=
      makeEntLoop_cons tmpls ep base pn cat istart false 1 0 es0 (es1 ++ [])
        hes0 hstep1
    have hadd : 1 + istart = istart + 1 := Nat.add_comm 1 istart
    refine ⟨es0 ++ (es1 ++ []), hstep0, ?_, ?_⟩
    · rw [List.append_nil, keysOfEntities_append, hk0, hk1]
      simp only [Nat.zero_add, hadd]
    · rw [List.append_nil, keysOfEntities_append, hk0, hk1]
      simp only [Nat.zero_add, hadd]
      refine List.Nodup.append
        (hnd.map (strAppendLeftInj (base ++ toString istart)))
        (hnd.map (strAppendLeftInj (base ++ toString (istart + 1)))) ?_
      intro a ha hb
      simp only [List.mem_map] at ha hb
      obtain ⟨s1, _, h1⟩ := ha
      obtain ⟨s2, _, h2⟩ := hb
      exact strAppendReprNe base istart s1 s2 (h1.trans h2.symm)

/-- Witness: two convention-following templates with suffixes `_temp` and
`_size`; the count-0 clause of the amended claim at its concrete input. -/
theorem make_entities_key_spec_witness :
    make_entities none [demoTmplA, demoTmplB] "/sys" "disk" "Disk" "dyn"
      none (some 0) 1 true = some [] :=
  (make_entities_key_spec ["_temp", "_size"] [demoTmplA, demoTmplB]
    "/sys" "disk" "Disk" "dyn" true
    (List.Forall₂.cons ⟨rfl, rfl, rfl, rfl, rfl, rfl, rfl⟩
      (List.Forall₂.cons ⟨rfl, rfl, rfl, rfl, rfl, rfl, rfl⟩
        List.Forall₂.nil))
    (by decide)).1 1 true

/-- The engine's non-string-path behaviour, traced concretely: after a
descriptor assigns 9, a following non-string-path descriptor stores that
same stale 9 (the `value` local is reused, not reset); only when the
non-string-path descriptor comes first — `value` still unbound — does the
caught `NameError` store null. -/
theorem fetch_nonstring_path_stale :
    jLookup (get_entity_data_from_api demoApi
      [("/ok", [demoOkEnt, demoNonStrEnt])]).1 "c_val" = some (.num 9)
    ∧ jLookup (get_entity_data_from_api demoApi
      [("/ok", [demoNonStrEnt, demoOkEnt])]).1 "c_val" = some .null :=
  ⟨rfl, rfl⟩
